import Mathlib

/-!
QSerialPortPrivate (Windows back end): asynchronous I/O coordinator.

A shallow embedding of `src/serialport/qserialport_win.cpp`.

* The member variables of `QSerialPortPrivate` that the file reads or writes form the
  record `QSerialPortPrivate`.
* Everything on the other side of the Win32 boundary (the requests armed on the handle, the
  thread's last-error value, the sequence of system calls issued) forms the record `Os`.
* What a system call answers is not decided by the program; every operation that issues a
  call takes the answer as an argument.
* Signals emitted towards the application are appended to `World.emitted`.
-/

namespace QSerialPortWin

/-! ## Error kinds and system codes -/

/-- Enumeration `QSerialPort::SerialPortError` (declared in the public header). -/
inductive SerialPortError
  | NoError
  | DeviceNotFoundError
  | PermissionError
  | OpenError
  | WriteError
  | ReadError
  | ResourceError
  | UnsupportedOperationError
  | UnknownError
  | TimeoutError
  | NotOpenError
  deriving DecidableEq, Repr

/-- Text of an error: either the rendering of a system code (`qt_error_string(code)`, a Qt
library function) or a literal message. The rendering itself is not modelled. -/
inductive ErrorString
  | system (code : Int)
  | text (s : String)
  deriving DecidableEq, Repr

/-- Record `QSerialPortErrorInfo`. -/
structure QSerialPortErrorInfo where
  errorCode : SerialPortError
  errorString : ErrorString
  deriving DecidableEq, Repr

/-! Win32 codes used by the classifier, with their values from the platform header
`winerror.h`. -/

def ERROR_SUCCESS : Int := 0
def ERROR_FILE_NOT_FOUND : Int := 2
def ERROR_PATH_NOT_FOUND : Int := 3
def ERROR_ACCESS_DENIED : Int := 5
def ERROR_INVALID_HANDLE : Int := 6
def ERROR_BAD_COMMAND : Int := 22
def ERROR_INVALID_PARAMETER : Int := 87
def ERROR_INVALID_NAME : Int := 123
def ERROR_MORE_DATA : Int := 234
def WAIT_TIMEOUT : Int := 258
def ERROR_OPERATION_ABORTED : Int := 995
def ERROR_IO_PENDING : Int := 997
def ERROR_DEVICE_REMOVED : Int := 1617

/-- Conversion of a `DWORD` (taken modulo 2^32) to a 32-bit `int`. -/
def toInt32 (n : Nat) : Int :=
  if n % 2 ^ 32 < 2 ^ 31 then ((n % 2 ^ 32 : Nat) : Int) else ((n % 2 ^ 32 : Nat) : Int) - 2 ^ 32

/-- Conversion of a `DWORD` (taken modulo 2^32) to `qint64`: zero extension. -/
def toInt64 (n : Nat) : Int := ((n % 2 ^ 32 : Nat) : Int)

/-- The code that the `switch` of `getSystemError` inspects: the argument, unless it is the
default argument `-1`, in which case it is `::GetLastError()` stored into an `int`. -/
def osCode (lastError : Nat) (systemErrorCode : Int) : Int :=
  if systemErrorCode = -1 then toInt32 lastError else systemErrorCode

/-- `QSerialPortPrivate::getSystemError(int systemErrorCode = -1)`. `lastError` is the value
`::GetLastError()` returns at the time of the call. -/
def getSystemError (lastError : Nat) (systemErrorCode : Int) : QSerialPortErrorInfo :=
  let code := osCode lastError systemErrorCode
  let errorCode :=
    if code = ERROR_SUCCESS then SerialPortError.NoError
    else if code = ERROR_IO_PENDING then SerialPortError.NoError
    else if code = ERROR_MORE_DATA then SerialPortError.NoError
    else if code = ERROR_FILE_NOT_FOUND then SerialPortError.DeviceNotFoundError
    else if code = ERROR_PATH_NOT_FOUND then SerialPortError.DeviceNotFoundError
    else if code = ERROR_INVALID_NAME then SerialPortError.DeviceNotFoundError
    else if code = ERROR_ACCESS_DENIED then SerialPortError.PermissionError
    else if code = ERROR_INVALID_HANDLE then SerialPortError.ResourceError
    else if code = ERROR_INVALID_PARAMETER then SerialPortError.UnsupportedOperationError
    else if code = ERROR_BAD_COMMAND then SerialPortError.ResourceError
    else if code = ERROR_DEVICE_REMOVED then SerialPortError.ResourceError
    else if code = ERROR_OPERATION_ABORTED then SerialPortError.ResourceError
    else if code = WAIT_TIMEOUT then SerialPortError.TimeoutError
    else SerialPortError.UnknownError
  { errorCode := errorCode, errorString := ErrorString.system code }

/-! ## Data model -/

/-- One byte (`char`). -/
abbrev Byte := Fin 256

/-- Conversion of a `qint64` to a `DWORD` argument: reduction modulo 2^32. -/
def toDWORD (i : Int) : Nat := (i % 2 ^ 32).toNat

/-- Configuration fields of the Win32 record `DCB` that this file reads or writes. -/
structure DCB where
  BaudRate : Nat
  fBinary : Bool
  fParity : Bool
  fOutxCtsFlow : Bool
  fDtrControl : Nat
  fOutX : Bool
  fInX : Bool
  fErrorChar : Bool
  fNull : Bool
  fRtsControl : Nat
  fAbortOnError : Bool
  ByteSize : Nat
  Parity : Nat
  StopBits : Nat
  deriving DecidableEq, Repr

/-- Win32 record `COMMTIMEOUTS`. -/
structure COMMTIMEOUTS where
  ReadIntervalTimeout : Nat
  ReadTotalTimeoutMultiplier : Nat
  ReadTotalTimeoutConstant : Nat
  WriteTotalTimeoutMultiplier : Nat
  WriteTotalTimeoutConstant : Nat
  deriving DecidableEq, Repr

/-- Modelled from the spec: the Chunked Byte Buffer behind `writeBuffer` (class `QRingBuffer`
of the Qt core library, not part of this repository): a queue of variable-length byte
sequences with `append`, a head that `read` dequeues, and a total size. Appending zero bytes
adds no chunk, so the queue is empty exactly when it holds no byte. -/
abbrev ChunkedByteBuffer := List (List Byte)

namespace ChunkedByteBuffer

/-- Member `append(data, size)`: the bytes become the new tail chunk. -/
def append (b : ChunkedByteBuffer) (data : List Byte) : ChunkedByteBuffer :=
  if data = [] then b else b ++ [data]

/-- Member `isEmpty()`. -/
def isEmpty (b : ChunkedByteBuffer) : Bool := b.all List.isEmpty

/-- Member `size()`: number of bytes held. -/
def size (b : ChunkedByteBuffer) : Nat := (b.map List.length).sum

/-- Member `read()`: dequeues the head chunk and returns it. -/
def read (b : ChunkedByteBuffer) : List Byte × ChunkedByteBuffer :=
  match b with
  | [] => ([], [])
  | c :: cs => (c, cs)

/-- Member `clear()`. -/
def clear (_b : ChunkedByteBuffer) : ChunkedByteBuffer := []

end ChunkedByteBuffer

/-- The three kinds of asynchronous operation. -/
inductive Kind
  | Watch
  | Read
  | Write
  deriving DecidableEq, Repr

/-- A request accepted by the system and not yet completed. `overlapped` identifies the
`Overlapped` object passed with it; `size` is the byte count passed (0 for a watch). -/
structure Request where
  kind : Kind
  overlapped : Nat
  size : Nat
  deriving DecidableEq, Repr

/-- System calls issued by the coordinator, in the order of `Os.calls`. -/
inductive OsCall
  | waitCommEvent (overlapped : Nat)
  | readFileEx (overlapped : Nat) (bytesToRead : Nat)
  | writeFileEx (overlapped : Nat) (data : List Byte)
  | cancelIoEx (overlapped : Nat)
  | clearCommError
  | setCommState (dcb : DCB)
  | setCommTimeouts (timeouts : COMMTIMEOUTS)
  | closeHandle
  deriving DecidableEq, Repr

/-- Signals emitted to the application. -/
inductive Signal
  | readyRead
  | bytesWritten (bytes : Int)
  | errorOccurred (error : SerialPortError)
  deriving DecidableEq, Repr

/-- Answer of the system to a call that arms a request: the call returns `TRUE` and the
request is outstanding, or it returns `FALSE`, nothing is outstanding and the last-error value
is `lastError`. -/
inductive ArmReply
  | accepted
  | rejected (lastError : Nat)
  deriving DecidableEq, Repr

/-- Answer of the system to a call that arms nothing: success, or failure with the last-error
value it leaves. -/
inductive CallReply
  | ok
  | failed (lastError : Nat)
  deriving DecidableEq, Repr

/-- Member variables of `QSerialPortPrivate` used by the Windows back end. `handle = none` is
`INVALID_HANDLE_VALUE`; an `Overlapped` pointer is `none` when it is `nullptr`; the timer is
`none` when it is `nullptr` and `some active` otherwise. `buffer` is the read accumulator
(only its bytes are observable here), `error` and `errorString` are what `setError` records.
`readChunkBuffer` lists the leading bytes of the scratch chunk, which holds
`QSERIALPORT_BUFFERSIZE` bytes (the `Q_ASSERT` of `startAsyncRead`); the bytes it does not
list are 0. -/
structure QSerialPortPrivate where
  handle : Option Nat
  communicationStarted : Bool
  readStarted : Bool
  writeStarted : Bool
  communicationCompletionOverlapped : Option Nat
  readCompletionOverlapped : Option Nat
  writeCompletionOverlapped : Option Nat
  startAsyncWriteTimer : Option Bool
  readBytesTransferred : Int
  writeBytesTransferred : Int
  readBufferMaxSize : Int
  buffer : List Byte
  writeBuffer : ChunkedByteBuffer
  readChunkBuffer : List Byte
  writeChunkBuffer : List Byte
  settingsRestoredOnClose : Bool
  restoredDcb : DCB
  restoredCommTimeouts : COMMTIMEOUTS
  error : SerialPortError
  errorString : ErrorString
  deriving DecidableEq, Repr

/-- The system side. `pending` holds the requests armed and not yet completed, `detached` the
`Overlapped` objects whose back pointer `dptr` has been cleared, `nextOverlapped` the identity
the next `new Overlapped` gets, `dcb` and `commTimeouts` the configuration the device holds. -/
structure Os where
  lastError : Nat
  pending : List Request
  detached : List Nat
  nextOverlapped : Nat
  calls : List OsCall
  dcb : DCB
  commTimeouts : COMMTIMEOUTS
  deriving DecidableEq, Repr

/-- Coordinator, system side and the signals emitted so far. -/
structure World where
  d : QSerialPortPrivate
  os : Os
  emitted : List Signal
  deriving DecidableEq, Repr

/-! ## System side -/

/-- Expression `new Overlapped(this)` guarded by `if (!pointer)`: the object already held, or
a fresh one. -/
def obtainOverlapped (pointer : Option Nat) (os : Os) : Nat × Os :=
  match pointer with
  | some t => (t, os)
  | none => (os.nextOverlapped, { os with nextOverlapped := os.nextOverlapped + 1 })

/-- A call that arms a request (`qt_wait_comm_event_ex`, `ReadFileEx`, `WriteFileEx`): the call
is recorded; when accepted the request becomes outstanding, when rejected the last-error value
is set. -/
def osArm (call : OsCall) (request : Request) (reply : ArmReply) (os : Os) : Os :=
  match reply with
  | ArmReply.accepted =>
      { os with calls := os.calls ++ [call], pending := os.pending ++ [request] }
  | ArmReply.rejected e =>
      { os with calls := os.calls ++ [call], lastError := e }

/-- Effect of a plain call on the record of calls and the last-error value. -/
def osCall (call : OsCall) (reply : CallReply) (os : Os) : Os :=
  match reply with
  | CallReply.ok => { os with calls := os.calls ++ [call] }
  | CallReply.failed e => { os with calls := os.calls ++ [call], lastError := e }

/-- Block of `close()` for one kind: a started operation has its `Overlapped` detached
(`dptr = nullptr`) and `CancelIoEx` requested; otherwise the object is deleted. A started
operation without an object (a null dereference in the source) leaves the system untouched. -/
def cancelOrDelete (started : Bool) (pointer : Option Nat) (os : Os) : Os :=
  match started, pointer with
  | true, some t =>
      { os with detached := os.detached ++ [t], calls := os.calls ++ [OsCall.cancelIoEx t] }
  | _, _ => os

/-! ## Coordinator operations -/

/-- Modelled from the spec: `QSerialPortPrivate::setError`, defined in `qserialport.cpp`
which is not among the sources: the error is recorded as the current error of the port and
surfaced through the error event. -/
def setError (errorInfo : QSerialPortErrorInfo) (w : World) : World :=
  { w with
    d := { w.d with error := errorInfo.errorCode, errorString := errorInfo.errorString }
    emitted := w.emitted ++ [Signal.errorOccurred errorInfo.errorCode] }

/-- `QSerialPortPrivate::emitReadyRead`. -/
def emitReadyRead (w : World) : World :=
  { w with emitted := w.emitted ++ [Signal.readyRead] }

/-- `QSerialPortPrivate::startAsyncCommunication`. -/
def startAsyncCommunication (reply : ArmReply) (w : World) : Bool × World :=
  if w.d.communicationStarted then (true, w)
  else
    let a := obtainOverlapped w.d.communicationCompletionOverlapped w.os
    let w1 : World :=
      { w with
        d := { w.d with communicationCompletionOverlapped := some a.1,
                        communicationStarted := true }
        os := osArm (OsCall.waitCommEvent a.1) ⟨Kind.Watch, a.1, 0⟩ reply a.2 }
    match reply with
    | ArmReply.accepted => (true, w1)
    | ArmReply.rejected _ =>
        let w2 : World := { w1 with d := { w1.d with communicationStarted := false } }
        let error := getSystemError w2.os.lastError (-1)
        if error.errorCode ≠ SerialPortError.NoError then
          let error1 :=
            if error.errorCode = SerialPortError.PermissionError then
              { error with errorCode := SerialPortError.ResourceError }
            else error
          (false, setError error1 w2)
        else (true, w2)

/-- `QSerialPortPrivate::startAsyncRead`. `QSERIALPORT_BUFFERSIZE` is the chunk size, a
constant of the private header. The `Q_ASSERT` has no effect. -/
def startAsyncRead (QSERIALPORT_BUFFERSIZE : Nat) (reply : ArmReply) (w : World) :
    Bool × World :=
  if w.d.readStarted then (true, w)
  else
    let room : Int := w.d.readBufferMaxSize - (w.d.buffer.length : Int)
    let clamped : Bool :=
      decide (w.d.readBufferMaxSize ≠ 0) && decide ((QSERIALPORT_BUFFERSIZE : Int) > room)
    let bytesToRead : Int := if clamped then room else (QSERIALPORT_BUFFERSIZE : Int)
    if clamped && decide (bytesToRead ≤ 0) then (false, w)
    else
      let a := obtainOverlapped w.d.readCompletionOverlapped w.os
      let w1 : World :=
        { w with
          d := { w.d with readCompletionOverlapped := some a.1, readStarted := true }
          os := osArm (OsCall.readFileEx a.1 (toDWORD bytesToRead))
                  ⟨Kind.Read, a.1, toDWORD bytesToRead⟩ reply a.2 }
      match reply with
      | ArmReply.accepted => (true, w1)
      | ArmReply.rejected _ =>
          let w2 : World := { w1 with d := { w1.d with readStarted := false } }
          let error := getSystemError w2.os.lastError (-1)
          if error.errorCode ≠ SerialPortError.NoError then
            let error1 :=
              if error.errorCode = SerialPortError.PermissionError then
                { error with errorCode := SerialPortError.ResourceError }
              else error
            let error2 :=
              if error1.errorCode ≠ SerialPortError.ResourceError then
                { error1 with errorCode := SerialPortError.ReadError }
              else error1
            (false, setError error2 w2)
          else (true, w2)

/-- `QSerialPortPrivate::_q_startAsyncWrite`. -/
def _q_startAsyncWrite (reply : ArmReply) (w : World) : Bool × World :=
  if w.d.writeBuffer.isEmpty || w.d.writeStarted then (true, w)
  else
    let chunk := w.d.writeBuffer.read
    let a := obtainOverlapped w.d.writeCompletionOverlapped w.os
    let w1 : World :=
      { w with
        d := { w.d with writeChunkBuffer := chunk.1, writeBuffer := chunk.2,
                        writeCompletionOverlapped := some a.1, writeStarted := true }
        os := osArm (OsCall.writeFileEx a.1 chunk.1)
                ⟨Kind.Write, a.1, toDWORD chunk.1.length⟩ reply a.2 }
    match reply with
    | ArmReply.accepted => (true, w1)
    | ArmReply.rejected _ =>
        let w2 : World := { w1 with d := { w1.d with writeStarted := false } }
        let error := getSystemError w2.os.lastError (-1)
        if error.errorCode ≠ SerialPortError.NoError then
          let error1 :=
            if error.errorCode ≠ SerialPortError.ResourceError then
              { error with errorCode := SerialPortError.WriteError }
            else error
          (false, setError error1 w2)
        else (true, w2)

/-- Fields of the Win32 record `COMSTAT` read by `queuedBytesCount`. -/
structure COMSTAT where
  cbInQue : Nat
  cbOutQue : Nat
  deriving DecidableEq, Repr

/-- Values of `QSerialPort::Direction`; a `Directions` argument is their bitwise union. -/
def Input : Nat := 1
def Output : Nat := 2
def AllDirections : Nat := 3

/-- `QSerialPortPrivate::queuedBytesCount`. `comstat` is what `ClearCommError` answers:
`none` when the call returns 0. The conditional expression has type `DWORD`, so its `-1` is
converted to `DWORD` before the result is widened to `qint64`. -/
def queuedBytesCount (direction : Nat) (comstat : Option COMSTAT) (w : World) : Int × World :=
  let w1 : World := { w with os := { w.os with calls := w.os.calls ++ [OsCall.clearCommError] } }
  (match comstat with
   | none => -1
   | some c =>
       if direction = Input then toInt64 c.cbInQue
       else if direction = Output then toInt64 c.cbOutQue else toInt64 (toDWORD (-1)), w1)

/-- `QSerialPortPrivate::completeAsyncCommunication`. -/
def completeAsyncCommunication (QSERIALPORT_BUFFERSIZE : Nat) (bytesTransferred : Int)
    (reply : ArmReply) (w : World) : Bool × World :=
  let w1 : World := { w with d := { w.d with communicationStarted := false } }
  if bytesTransferred = -1 then (false, w1)
  else startAsyncRead QSERIALPORT_BUFFERSIZE reply w1

/-- The `n` bytes that `buffer.append(readChunkBuffer.constData(), n)` copies: exactly `n`
bytes starting at the scratch chunk, those the list holds followed by the bytes it does not
list. -/
def bytesAt (scratch : List Byte) (n : Nat) : List Byte :=
  scratch.take n ++ List.replicate (n - scratch.length) 0

/-- `QSerialPortPrivate::completeAsyncRead`. -/
def completeAsyncRead (QSERIALPORT_BUFFERSIZE : Nat) (bytesTransferred : Int)
    (comstat : Option COMSTAT) (reply : ArmReply) (w : World) : Bool × World :=
  let w1 : World := { w with d := { w.d with readBytesTransferred := bytesTransferred } }
  if bytesTransferred = -1 then
    (false, { w1 with d := { w1.d with readStarted := false } })
  else
    let w2 : World :=
      if bytesTransferred > 0 then
        { w1 with d := { w1.d with
            buffer := w1.d.buffer ++ bytesAt w1.d.readChunkBuffer bytesTransferred.toNat } }
      else w1
    let w3 : World := { w2 with d := { w2.d with readStarted := false } }
    let r : Bool × World :=
      if bytesTransferred = (QSERIALPORT_BUFFERSIZE : Int) then
        startAsyncRead QSERIALPORT_BUFFERSIZE reply w3
      else
        let q := queuedBytesCount Input comstat w3
        if q.1 > 0 then startAsyncRead QSERIALPORT_BUFFERSIZE reply q.2
        else startAsyncCommunication reply q.2
    if bytesTransferred > 0 then (r.1, emitReadyRead r.2) else r

/-- `QSerialPortPrivate::completeAsyncWrite`. The `Q_ASSERT` has no effect. -/
def completeAsyncWrite (bytesTransferred : Int) (reply : ArmReply) (w : World) :
    Bool × World :=
  let w1 : World := { w with d := { w.d with writeBytesTransferred := bytesTransferred } }
  if w1.d.writeStarted then
    if bytesTransferred = -1 then
      (false, { w1 with d := { w1.d with writeChunkBuffer := [], writeStarted := false } })
    else
      let w2 : World :=
        { w1 with
          d := { w1.d with writeChunkBuffer := [], writeStarted := false }
          emitted := w1.emitted ++ [Signal.bytesWritten bytesTransferred] }
      _q_startAsyncWrite reply w2
  else _q_startAsyncWrite reply w1

/-- `QSerialPortPrivate::handleNotification`. Both `DWORD` arguments are natural numbers taken
modulo 2^32: the error code is passed to the `int` parameter of `getSystemError`, the byte
count to the `qint64` parameter of the completion functions. `comstat` and `reply` are the
answers of the system to the calls the completion function issues. -/
def handleNotification (QSERIALPORT_BUFFERSIZE : Nat) (bytesTransferred errorCode : Nat)
    (overlapped : Nat) (comstat : Option COMSTAT) (reply : ArmReply) (w : World) : World :=
  if w.d.handle = none then w
  else
    let error := getSystemError w.os.lastError (toInt32 errorCode)
    if error.errorCode ≠ SerialPortError.NoError then setError error w
    else if some overlapped = w.d.communicationCompletionOverlapped then
      (completeAsyncCommunication QSERIALPORT_BUFFERSIZE (toInt64 bytesTransferred) reply w).2
    else if some overlapped = w.d.readCompletionOverlapped then
      (completeAsyncRead QSERIALPORT_BUFFERSIZE (toInt64 bytesTransferred) comstat reply w).2
    else if some overlapped = w.d.writeCompletionOverlapped then
      (completeAsyncWrite (toInt64 bytesTransferred) reply w).2
    else w

/-- `QSerialPortPrivate::ioCompletionRoutine`: a detached `Overlapped` is deleted, any other
one is handed to `handleNotification`. -/
def ioCompletionRoutine (QSERIALPORT_BUFFERSIZE : Nat) (errorCode bytesTransfered : Nat)
    (overlapped : Nat) (comstat : Option COMSTAT) (reply : ArmReply) (w : World) : World :=
  if overlapped ∈ w.os.detached then
    { w with os := { w.os with detached := w.os.detached.erase overlapped } }
  else
    handleNotification QSERIALPORT_BUFFERSIZE bytesTransfered errorCode overlapped
      comstat reply w

/-- `QSerialPortPrivate::close`. The two replies answer `SetCommState` and `SetCommTimeouts`,
whose results the function ignores. -/
def close (restoreDcb restoreTimeouts : CallReply) (w : World) : World :=
  let os1 := cancelOrDelete w.d.communicationStarted w.d.communicationCompletionOverlapped w.os
  let os2 := cancelOrDelete w.d.readStarted w.d.readCompletionOverlapped os1
  let os3 := cancelOrDelete w.d.writeStarted w.d.writeCompletionOverlapped os2
  let os4 : Os :=
    if w.d.settingsRestoredOnClose then
      let o1 := osCall (OsCall.setCommState w.d.restoredDcb) restoreDcb os3
      let o2 : Os := if restoreDcb = CallReply.ok then { o1 with dcb := w.d.restoredDcb } else o1
      let o3 := osCall (OsCall.setCommTimeouts w.d.restoredCommTimeouts) restoreTimeouts o2
      if restoreTimeouts = CallReply.ok then
        { o3 with commTimeouts := w.d.restoredCommTimeouts }
      else o3
    else os3
  { w with
    d := { w.d with
      startAsyncWriteTimer := none
      communicationCompletionOverlapped := none
      communicationStarted := false
      readCompletionOverlapped := none
      readStarted := false
      writeCompletionOverlapped := none
      writeStarted := false
      readBytesTransferred := 0
      writeBytesTransferred := 0
      writeBuffer := w.d.writeBuffer.clear
      handle := none }
    os := { os4 with calls := os4.calls ++ [OsCall.closeHandle] } }

/-- `QSerialPortPrivate::writeData`: the bytes are queued and the single-shot timer that will
run `_q_startAsyncWrite` is created and started when needed. -/
def writeData (data : List Byte) (w : World) : Int × World :=
  let w1 : World := { w with d := { w.d with writeBuffer := w.d.writeBuffer.append data } }
  let w2 : World :=
    if !w1.d.writeBuffer.isEmpty && !w1.d.writeStarted then
      { w1 with d := { w1.d with startAsyncWriteTimer := some true } }
    else w1
  ((data.length : Int), w2)

/-! ## Line configuration -/

/-- `qt_set_baudrate`: the `qint32` rate is stored into the `DWORD` field. -/
def qt_set_baudrate (dcb : DCB) (baudrate : Int) : DCB :=
  { dcb with BaudRate := toDWORD baudrate }

/-- `QSerialPortPrivate::getDcb`: `GetCommState` answers with the configuration the device
holds, or fails. -/
def getDcb (reply : CallReply) (w : World) : Option DCB × World :=
  match reply with
  | CallReply.ok => (some w.os.dcb, w)
  | CallReply.failed e =>
      let w1 : World := { w with os := { w.os with lastError := e } }
      (none, setError (getSystemError w1.os.lastError (-1)) w1)

/-- `QSerialPortPrivate::setDcb`: `SetCommState` stores the configuration in the device, or
fails. -/
def setDcb (dcb : DCB) (reply : CallReply) (w : World) : Bool × World :=
  let w1 : World := { w with os := osCall (OsCall.setCommState dcb) reply w.os }
  match reply with
  | CallReply.ok => (true, { w1 with os := { w1.os with dcb := dcb } })
  | CallReply.failed _ => (false, setError (getSystemError w1.os.lastError (-1)) w1)

/-- `QSerialPortPrivate::setBaudRate(qint32, QSerialPort::Directions)`. -/
def setBaudRate (baudRate : Int) (directions : Nat) (getReply setReply : CallReply)
    (w : World) : Bool × World :=
  if directions ≠ AllDirections then
    (false, setError ⟨SerialPortError.UnsupportedOperationError,
      ErrorString.text "Custom baud rate direction is unsupported"⟩ w)
  else
    let g := getDcb getReply w
    match g.1 with
    | none => (false, g.2)
    | some dcb => setDcb (qt_set_baudrate dcb baudRate) setReply g.2

/-- `QSerialPortPrivate::standardBaudRates`, with the values of the `CBR_` constants of the
platform header `winbase.h`. -/
def standardBaudRates : List Int :=
  [110, 300, 600, 1200, 2400, 4800, 9600, 14400, 19200, 38400, 56000, 57600, 115200, 128000,
   256000]

/-! ## Completions delivered by the system, and bounded waits -/

/-- What the system delivers when an outstanding request completes: the request, the two
`DWORD` arguments of the completion routine, the bytes a read has stored in the scratch chunk,
and the answers to the calls the completion function issues. -/
structure Completion where
  request : Request
  errorCode : Nat
  bytesTransfered : Nat
  data : List Byte
  comstat : Option COMSTAT
  reply : ArmReply
  deriving DecidableEq, Repr

/-- Delivery of a completion: the request is no longer outstanding, a read has written its
bytes at the start of the scratch chunk, and `ioCompletionRoutine` runs. -/
def deliver (QSERIALPORT_BUFFERSIZE : Nat) (c : Completion) (w : World) : World :=
  let w1 : World :=
    { w with
      os := { w.os with pending := w.os.pending.erase c.request }
      d := if c.request.kind = Kind.Read then
             { w.d with readChunkBuffer := c.data ++ w.d.readChunkBuffer.drop c.data.length }
           else w.d }
  ioCompletionRoutine QSERIALPORT_BUFFERSIZE c.errorCode c.bytesTransfered
    c.request.overlapped c.comstat c.reply w1

/-- One pass of the loop of a bounded wait, as the environment decides it: the completions
that `SleepEx` runs (none when the sleep ends without `WAIT_IO_COMPLETION`) and the value of
`deadline.hasExpired()` at the loop test that follows. -/
structure SleepStep where
  completions : List Completion
  expired : Bool
  deriving DecidableEq, Repr

/-- The `do ... while` loop of `waitForBytesWritten`. The list is the behaviour of the
environment, one entry per pass; `none` means the list ended before the loop did. A deadline
built from `msecs = -1` never expires. -/
def waitForBytesWrittenLoop (QSERIALPORT_BUFFERSIZE : Nat) (msecs : Int) :
    List SleepStep → World → Option (Bool × World)
  | [], _ => none
  | s :: rest, w =>
      let expired : Bool := decide (msecs ≠ -1) && s.expired
      if w.d.writeBytesTransferred ≤ 0 then
        let w1 := s.completions.foldl (fun v c => deliver QSERIALPORT_BUFFERSIZE c v) w
        let timedOut : Bool × World :=
          (false, setError (getSystemError w1.os.lastError WAIT_TIMEOUT) w1)
        if s.completions = [] then
          if expired then some timedOut
          else waitForBytesWrittenLoop QSERIALPORT_BUFFERSIZE msecs rest w1
        else if w1.d.writeBytesTransferred > 0 then
          some (true, { w1 with d := { w1.d with writeBytesTransferred := 0 } })
        else if expired then some timedOut
        else waitForBytesWrittenLoop QSERIALPORT_BUFFERSIZE msecs rest w1
      else some (true, { w with d := { w.d with writeBytesTransferred := 0 } })

/-- `QSerialPortPrivate::waitForBytesWritten`. -/
def waitForBytesWritten (QSERIALPORT_BUFFERSIZE : Nat) (msecs : Int) (reply : ArmReply)
    (script : List SleepStep) (w : World) : Option (Bool × World) :=
  if w.d.writeBuffer.isEmpty && w.d.writeChunkBuffer.isEmpty then some (false, w)
  else
    let p : Bool × World := if !w.d.writeStarted then _q_startAsyncWrite reply w else (true, w)
    if !p.1 then some (false, p.2)
    else waitForBytesWrittenLoop QSERIALPORT_BUFFERSIZE msecs script p.2

/-! ## Sequences of coordinator operations -/

/-- One step of a run of the coordinator: a start operation with the answer of the system, the
delivery of a completion, `close`, a write submitted by the caller, or a read by the caller. -/
inductive Op
  | startAsyncCommunication (reply : ArmReply)
  | startAsyncRead (reply : ArmReply)
  | startAsyncWrite (reply : ArmReply)
  | completion (c : Completion)
  | close (restoreDcb restoreTimeouts : CallReply)
  | writeData (data : List Byte)
  | callerRead (n : Nat)
  deriving DecidableEq, Repr

/-- Modelled from the spec: a read by the caller through the facade (`QIODevice::read`, not
among the sources) only removes bytes from the front of the accumulator. -/
def callerRead (n : Nat) (w : World) : World :=
  { w with d := { w.d with buffer := w.d.buffer.drop n } }

/-- Effect of one step. -/
def step (QSERIALPORT_BUFFERSIZE : Nat) (op : Op) (w : World) : World :=
  match op with
  | Op.startAsyncCommunication reply => (startAsyncCommunication reply w).2
  | Op.startAsyncRead reply => (startAsyncRead QSERIALPORT_BUFFERSIZE reply w).2
  | Op.startAsyncWrite reply => (_q_startAsyncWrite reply w).2
  | Op.completion c => deliver QSERIALPORT_BUFFERSIZE c w
  | Op.close a b => close a b w
  | Op.writeData data => (writeData data w).2
  | Op.callerRead n => callerRead n w

/-- Effect of a sequence of steps. -/
def run (QSERIALPORT_BUFFERSIZE : Nat) (ops : List Op) (w : World) : World :=
  ops.foldl (fun v op => step QSERIALPORT_BUFFERSIZE op v) w

/-- The answer the step carries for an arming call, if it can issue one. -/
def Op.reply : Op → Option ArmReply
  | Op.startAsyncCommunication reply => some reply
  | Op.startAsyncRead reply => some reply
  | Op.startAsyncWrite reply => some reply
  | Op.completion c => some c.reply
  | _ => none

/-- What the environment may do at a step: the system accepts a request only on a valid
handle, and it completes only a request that is outstanding. -/
def enabled (op : Op) (w : World) : Prop :=
  (op.reply = some ArmReply.accepted → w.d.handle ≠ none) ∧
  (∀ c, op = Op.completion c → c.request ∈ w.os.pending)

/-- Every step of the sequence is enabled in the state it is taken in. -/
def Admissible (QSERIALPORT_BUFFERSIZE : Nat) : List Op → World → Prop
  | [], _ => True
  | op :: ops, w =>
      enabled op w ∧ Admissible QSERIALPORT_BUFFERSIZE ops (step QSERIALPORT_BUFFERSIZE op w)

/-- A completed read transfers at most the number of bytes its request asked for. -/
def withinRequest (op : Op) : Prop :=
  ∀ c, op = Op.completion c → c.request.kind = Kind.Read →
    c.bytesTransfered ≤ c.request.size

/-- Number of requests of a kind armed on the handle and not yet completed. -/
def armedCount (k : Kind) (w : World) : Nat :=
  w.os.pending.countP (fun r => decide (r.kind = k))

/-- The started flag of a kind. -/
def startedOf (k : Kind) (d : QSerialPortPrivate) : Bool :=
  match k with
  | Kind.Watch => d.communicationStarted
  | Kind.Read => d.readStarted
  | Kind.Write => d.writeStarted

/-- The `Overlapped` pointer of a kind. -/
def overlappedOf (k : Kind) (d : QSerialPortPrivate) : Option Nat :=
  match k with
  | Kind.Watch => d.communicationCompletionOverlapped
  | Kind.Read => d.readCompletionOverlapped
  | Kind.Write => d.writeCompletionOverlapped

/-- Consistency of coordinator and system: at most one request of each kind is outstanding;
while the handle is valid every outstanding request belongs to a started operation and
carries the `Overlapped` object of its kind; the objects of different kinds are different and
were allocated before the next fresh one. -/
structure Coherent (w : World) : Prop where
  atMostOne : ∀ k, armedCount k w ≤ 1
  owned : w.d.handle ≠ none → ∀ r ∈ w.os.pending,
    startedOf r.kind w.d = true ∧ overlappedOf r.kind w.d = some r.overlapped
  distinct : ∀ k1 k2 t, overlappedOf k1 w.d = some t → overlappedOf k2 w.d = some t → k1 = k2
  allocated : ∀ k t, overlappedOf k w.d = some t → t < w.os.nextOverlapped

/-- A port on which nothing has been armed yet: no request outstanding, no `Overlapped` object
allocated. -/
def Idle (w : World) : Prop :=
  w.os.pending = [] ∧ w.d.communicationCompletionOverlapped = none ∧
  w.d.readCompletionOverlapped = none ∧ w.d.writeCompletionOverlapped = none

/-- The ceiling `N` is respected: it is positive, it is the value of `readBufferMaxSize`, the
accumulator holds at most `N` bytes, and while the handle is valid every outstanding read asks
for no more than the room left. -/
structure Bounded (N : Int) (w : World) : Prop where
  pos : 0 < N
  ceiling : w.d.readBufferMaxSize = N
  size_le : (w.d.buffer.length : Int) ≤ N
  room : w.d.handle ≠ none → ∀ r ∈ w.os.pending, r.kind = Kind.Read →
    (w.d.buffer.length : Int) + (r.size : Int) ≤ N

/-! ## Driving the write pump -/

/-- The caller submits the chunks one after the other with `writeData`. -/
def submit (chunks : List (List Byte)) (w : World) : World :=
  chunks.foldl (fun v c => (writeData c v).2) w

/-- While a write is in flight it completes successfully in full: `completeAsyncWrite` runs
with the size of the chunk in flight (and pumps the next chunk, which the system accepts). At
most `fuel` completions are taken. -/
def drain : Nat → World → World
  | 0, w => w
  | fuel + 1, w =>
      if w.d.writeStarted then
        drain fuel
          (completeAsyncWrite (w.d.writeChunkBuffer.length : Int) ArmReply.accepted w).2
      else w

/-- The pump is started with `_q_startAsyncWrite` (what the timer of `writeData` runs) and the
writes complete one after the other. -/
def pump (fuel : Nat) (w : World) : World :=
  drain fuel (_q_startAsyncWrite ArmReply.accepted w).2

/-- The payloads handed to `WriteFileEx`, in the order of the calls. -/
def writtenChunks (w : World) : List (List Byte) :=
  w.os.calls.filterMap fun c =>
    match c with
    | OsCall.writeFileEx _ data => some data
    | _ => none

/-- The counts carried by the `bytesWritten` signals, in the order of emission. -/
def reportedCounts (w : World) : List Int :=
  w.emitted.filterMap fun s =>
    match s with
    | Signal.bytesWritten n => some n
    | _ => none

/-- A concrete world used in examples: an open port with nothing armed. -/
def world0 : World :=
  { d := { handle := some 1, communicationStarted := false, readStarted := false,
           writeStarted := false, communicationCompletionOverlapped := none,
           readCompletionOverlapped := none, writeCompletionOverlapped := none,
           startAsyncWriteTimer := none, readBytesTransferred := 0, writeBytesTransferred := 0,
           readBufferMaxSize := 0, buffer := [], writeBuffer := [], readChunkBuffer := [],
           writeChunkBuffer := [], settingsRestoredOnClose := true,
           restoredDcb := ⟨9600, true, false, false, 0, false, false, false, false, 0, false, 8, 0, 0⟩,
           restoredCommTimeouts := ⟨0, 0, 0, 0, 0⟩, error := SerialPortError.NoError,
           errorString := ErrorString.text "" },
    os := { lastError := 0, pending := [], detached := [], nextOverlapped := 0, calls := [],
            dcb := ⟨115200, true, false, false, 0, false, false, false, false, 0, false, 8, 0, 0⟩,
            commTimeouts := ⟨0, 0, 0, 0, 0⟩ },
    emitted := [] }

/-- A concrete world: on `world0` a read was armed while the accumulator was unbounded, one
byte is buffered, and the caller has since set the ceiling to one byte. -/
def worldReadArmed : World :=
  { world0 with
    d := { world0.d with readStarted := true, readCompletionOverlapped := some 0,
                          readBufferMaxSize := 1, buffer := [7] }
    os := { world0.os with pending := [⟨Kind.Read, 0, 32768⟩], nextOverlapped := 1,
                            calls := [OsCall.readFileEx 0 32768] } }

/-- A concrete world: `world0` with one unread byte in the accumulator. -/
def worldUnread : World :=
  { world0 with d := { world0.d with buffer := [7] } }


/-- A concrete world: `world0` after `startAsyncRead` armed a read that the system accepted. -/
def worldReading : World := (startAsyncRead 32768 ArmReply.accepted world0).2

/-- The completion of the read armed in `worldReading`, failing with
`ERROR_OPERATION_ABORTED` (995). -/
def abortedRead : Completion :=
  { request := ⟨Kind.Read, 0, 32768⟩, errorCode := 995, bytesTransfered := 0, data := [],
    comstat := none, reply := ArmReply.accepted }

/-- A concrete world: `world0` with the ceiling of the accumulator set to two bytes. -/
def worldCeiling2 : World :=
  { world0 with d := { world0.d with readBufferMaxSize := 2 } }

/-- A concrete run on `worldCeiling2`: a read is armed, completes with two bytes, and the
caller reads one byte. -/
def runCeiling2 : List Op :=
  [Op.startAsyncRead ArmReply.accepted,
   Op.completion ⟨⟨Kind.Read, 0, 2⟩, 0, 2, [1, 2], none, ArmReply.accepted⟩,
   Op.callerRead 1]

/-- A concrete world for a chunk size of 4: on `world0` a read of one chunk was armed and
accepted, and the system has stored the bytes 1, 2, 3, 4 in the scratch chunk. -/
def worldScratch : World :=
  { (startAsyncRead 4 ArmReply.accepted world0).2 with
    d := { (startAsyncRead 4 ArmReply.accepted world0).2.d with
      readChunkBuffer := [1, 2, 3, 4] } }

/-! ## The error classifier -/

/-- C1: `getSystemError` is total and follows the fixed table. For every argument and every
last-error value, with `c` the system code the call classifies (the argument itself, or the
last-error value when the argument is the default `-1`): success, I/O pending and more data
give `NoError`; file not found, path not found and invalid name give `DeviceNotFoundError`;
access denied gives `PermissionError`; invalid handle, bad command, device removed and
operation aborted give `ResourceError`; invalid parameter gives `UnsupportedOperationError`;
wait timeout gives `TimeoutError`; every other code gives `UnknownError`. -/
theorem getSystemError_follows_table (lastError : Nat) (systemErrorCode : Int) :
    (systemErrorCode ≠ -1 → osCode lastError systemErrorCode = systemErrorCode) ∧
    (osCode lastError systemErrorCode ∈ [ERROR_SUCCESS, ERROR_IO_PENDING, ERROR_MORE_DATA] →
      (getSystemError lastError systemErrorCode).errorCode = SerialPortError.NoError) ∧
    (osCode lastError systemErrorCode ∈
        [ERROR_FILE_NOT_FOUND, ERROR_PATH_NOT_FOUND, ERROR_INVALID_NAME] →
      (getSystemError lastError systemErrorCode).errorCode
        = SerialPortError.DeviceNotFoundError) ∧
    (osCode lastError systemErrorCode = ERROR_ACCESS_DENIED →
      (getSystemError lastError systemErrorCode).errorCode = SerialPortError.PermissionError) ∧
    (osCode lastError systemErrorCode ∈
        [ERROR_INVALID_HANDLE, ERROR_BAD_COMMAND, ERROR_DEVICE_REMOVED,
         ERROR_OPERATION_ABORTED] →
      (getSystemError lastError systemErrorCode).errorCode = SerialPortError.ResourceError) ∧
    (osCode lastError systemErrorCode = ERROR_INVALID_PARAMETER →
      (getSystemError lastError systemErrorCode).errorCode
        = SerialPortError.UnsupportedOperationError) ∧
    (osCode lastError systemErrorCode = WAIT_TIMEOUT →
      (getSystemError lastError systemErrorCode).errorCode = SerialPortError.TimeoutError) ∧
    (osCode lastError systemErrorCode ∉
        [ERROR_SUCCESS, ERROR_IO_PENDING, ERROR_MORE_DATA, ERROR_FILE_NOT_FOUND,
         ERROR_PATH_NOT_FOUND, ERROR_INVALID_NAME, ERROR_ACCESS_DENIED, ERROR_INVALID_HANDLE,
         ERROR_BAD_COMMAND, ERROR_DEVICE_REMOVED, ERROR_OPERATION_ABORTED,
         ERROR_INVALID_PARAMETER, WAIT_TIMEOUT] →
      (getSystemError lastError systemErrorCode).errorCode = SerialPortError.UnknownError) := by
  refine ⟨fun h => by simp [osCode, h], ?_⟩
  simp only [getSystemError]
  generalize osCode lastError systemErrorCode = c
  simp only [ERROR_SUCCESS, ERROR_IO_PENDING, ERROR_MORE_DATA,
    ERROR_FILE_NOT_FOUND, ERROR_PATH_NOT_FOUND, ERROR_INVALID_NAME, ERROR_ACCESS_DENIED,
    ERROR_INVALID_HANDLE, ERROR_BAD_COMMAND, ERROR_DEVICE_REMOVED, ERROR_OPERATION_ABORTED,
    ERROR_INVALID_PARAMETER, WAIT_TIMEOUT, List.mem_cons, List.mem_singleton,
    List.not_mem_nil, or_false, not_or]
  refine ⟨?_, ?_, ?_, ?_, ?_, ?_, ?_⟩
  · rintro (h | h | h) <;> simp [h]
  · rintro (h | h | h) <;> simp [h]
  · rintro h; simp [h]
  · rintro (h | h | h | h) <;> simp [h]
  · rintro h; simp [h]
  · rintro h; simp [h]
  · rintro ⟨h1, h2, h3, h4, h5, h6, h7, h8, h9, h10, h11, h12, h13⟩
    simp [h1, h2, h3, h4, h5, h6, h7, h8, h9, h10, h11, h12, h13]

/-! ## Backpressure of `startAsyncRead` -/

/-- C2 (as stated, refuted): in `worldReadArmed` the ceiling is 1, the accumulator holds one
byte, and `startAsyncRead` returns success, because a read is already started. -/
theorem startAsyncRead_full_started_succeeds :
    0 < worldReadArmed.d.readBufferMaxSize ∧
    worldReadArmed.d.readBufferMaxSize ≤ (worldReadArmed.d.buffer.length : Int) ∧
    (startAsyncRead 32768 ArmReply.accepted worldReadArmed).1 = true := by
  refine ⟨by decide, by decide, ?_⟩
  simp [startAsyncRead, worldReadArmed]

/-- C2 (amended): for a positive chunk size, with a ceiling `N > 0` and at least `N` bytes
accumulated, `startAsyncRead` leaves the whole world unchanged, so no read request is issued; it returns failure when no
read is started, and success when a read is already started. -/
theorem startAsyncRead_full (QSERIALPORT_BUFFERSIZE : Nat) (reply : ArmReply) (w : World)
    (hB : 0 < QSERIALPORT_BUFFERSIZE) (hN : 0 < w.d.readBufferMaxSize)
    (hfull : w.d.readBufferMaxSize ≤ (w.d.buffer.length : Int)) :
    (w.d.readStarted = false →
      startAsyncRead QSERIALPORT_BUFFERSIZE reply w = (false, w)) ∧
    (w.d.readStarted = true →
      startAsyncRead QSERIALPORT_BUFFERSIZE reply w = (true, w)) := by
  constructor
  · intro hs
    have h1 : w.d.readBufferMaxSize ≠ 0 := by omega
    have h2 : (QSERIALPORT_BUFFERSIZE : Int) > w.d.readBufferMaxSize - (w.d.buffer.length : Int) := by
      omega
    have h3 : w.d.readBufferMaxSize - (w.d.buffer.length : Int) ≤ 0 := by omega
    simp [startAsyncRead, hs, h1, h2, h3]
  · intro hs
    simp [startAsyncRead, hs]

/-- Witness of `startAsyncRead_full`: the ceiling is met in `worldUnread` with ceiling 1. -/
theorem startAsyncRead_full_witness :
    startAsyncRead 32768 ArmReply.accepted
        { worldUnread with d := { worldUnread.d with readBufferMaxSize := 1 } }
      = (false, { worldUnread with d := { worldUnread.d with readBufferMaxSize := 1 } }) :=
  (startAsyncRead_full 32768 ArmReply.accepted
    { worldUnread with d := { worldUnread.d with readBufferMaxSize := 1 } }
    (by decide) (by decide) (by decide)).1 rfl

/-! ## Failed completions -/

/-- C6 (the code at the failing input): in `worldReading` a read is armed on an open port.
Its completion with `ERROR_OPERATION_ABORTED` records `ResourceError` and issues no call, but
the read stays marked as started although nothing is outstanding any more, so that a later
`startAsyncRead` returns success without arming anything. -/
theorem deliver_aborted_read_stays_started :
    worldReading.d.handle ≠ none ∧
    abortedRead.request ∈ worldReading.os.pending ∧
    (deliver 32768 abortedRead worldReading).d.error = SerialPortError.ResourceError ∧
    (deliver 32768 abortedRead worldReading).os.calls = worldReading.os.calls ∧
    (deliver 32768 abortedRead worldReading).os.pending = [] ∧
    (deliver 32768 abortedRead worldReading).d.readStarted = true ∧
    startAsyncRead 32768 ArmReply.accepted (deliver 32768 abortedRead worldReading)
      = (true, deliver 32768 abortedRead worldReading) := by
  decide

/-! ## `close` -/

theorem cancelOrDelete_pending (started : Bool) (pointer : Option Nat) (os : Os) :
    (cancelOrDelete started pointer os).pending = os.pending := by
  unfold cancelOrDelete
  split <;> rfl

theorem cancelOrDelete_false (pointer : Option Nat) (os : Os) :
    cancelOrDelete false pointer os = os := by
  unfold cancelOrDelete
  split
  · contradiction
  · rfl

theorem osCall_pending (call : OsCall) (reply : CallReply) (os : Os) :
    (osCall call reply os).pending = os.pending := by
  cases reply <;> rfl

theorem osCall_detached (call : OsCall) (reply : CallReply) (os : Os) :
    (osCall call reply os).detached = os.detached := by
  cases reply <;> rfl

/-- `close` completes no request: the outstanding requests stay outstanding (their
cancellation has only been requested). -/
theorem close_pending (a b : CallReply) (w : World) :
    (close a b w).os.pending = w.os.pending := by
  unfold close
  dsimp only
  split_ifs <;> simp [osCall_pending, cancelOrDelete_pending]

/-- With nothing started, `close` detaches nothing. -/
theorem close_detached_of_not_started (a b : CallReply) (w : World)
    (h1 : w.d.communicationStarted = false) (h2 : w.d.readStarted = false)
    (h3 : w.d.writeStarted = false) :
    (close a b w).os.detached = w.os.detached := by
  unfold close
  dsimp only
  rw [h1, h2, h3]
  split_ifs <;> simp [osCall_detached, cancelOrDelete_false]

/-- C7: `close` is idempotent on the coordinator. After `close`, whatever the system answers
and from every state, the handle is invalid, no operation is started, no `Overlapped` object
is held and both counters are zero; a second `close` leaves the coordinator state exactly as
the first left it, cancels nothing and leaves the outstanding requests as they were. -/
theorem close_idempotent (a b a1 b1 : CallReply) (w : World) :
    (close a b w).d.handle = none ∧
    (close a b w).d.communicationStarted = false ∧
    (close a b w).d.readStarted = false ∧
    (close a b w).d.writeStarted = false ∧
    (close a b w).d.communicationCompletionOverlapped = none ∧
    (close a b w).d.readCompletionOverlapped = none ∧
    (close a b w).d.writeCompletionOverlapped = none ∧
    (close a b w).d.readBytesTransferred = 0 ∧
    (close a b w).d.writeBytesTransferred = 0 ∧
    (close a1 b1 (close a b w)).d = (close a b w).d ∧
    (close a1 b1 (close a b w)).os.pending = (close a b w).os.pending ∧
    (close a1 b1 (close a b w)).os.detached = (close a b w).os.detached ∧
    (close a1 b1 (close a b w)).emitted = (close a b w).emitted := by
  refine ⟨rfl, rfl, rfl, rfl, rfl, rfl, rfl, rfl, rfl, ?_, ?_, ?_, rfl⟩
  · simp [close, ChunkedByteBuffer.clear]
  · rw [close_pending]
  · rw [close_detached_of_not_started _ _ _ rfl rfl rfl]

/-- C8 (as stated, refuted): closing `worldUnread`, whose accumulator holds one unread byte,
leaves that byte in the accumulator. -/
theorem close_keeps_accumulator :
    (close CallReply.ok CallReply.ok worldUnread).d.buffer = [7] ∧
    (close CallReply.ok CallReply.ok worldUnread).d.buffer ≠ [] := by
  decide

/-- C8 (amended): after `close`, from every state and whatever the system answers, the write
queue is empty and both transferred-byte counters are zero, while the read accumulator keeps
the bytes it held. -/
theorem close_clears_write_side (a b : CallReply) (w : World) :
    (close a b w).d.writeBuffer = [] ∧
    (close a b w).d.writeBuffer.isEmpty = true ∧
    (close a b w).d.writeBuffer.size = 0 ∧
    (close a b w).d.readBytesTransferred = 0 ∧
    (close a b w).d.writeBytesTransferred = 0 ∧
    (close a b w).d.buffer = w.d.buffer := by
  refine ⟨rfl, rfl, rfl, rfl, rfl, rfl⟩

/-! ## Bounded wait for written bytes -/

/-- C9: with an empty write queue and no chunk in flight, `waitForBytesWritten` returns false
at once for every timeout, whatever the environment would do: the result is available without
consuming any step of the environment and the whole world, current error included, is
unchanged. -/
theorem waitForBytesWritten_nothing_queued (QSERIALPORT_BUFFERSIZE : Nat) (msecs : Int)
    (reply : ArmReply) (script : List SleepStep) (w : World)
    (hqueue : w.d.writeBuffer.isEmpty = true) (hchunk : w.d.writeChunkBuffer.isEmpty = true) :
    waitForBytesWritten QSERIALPORT_BUFFERSIZE msecs reply script w = some (false, w) := by
  simp [waitForBytesWritten, hqueue, hchunk]

/-- Witness of `waitForBytesWritten_nothing_queued`: a wait of 50 ms on `world0`. -/
theorem waitForBytesWritten_nothing_queued_witness :
    waitForBytesWritten 32768 50 ArmReply.accepted [] world0 = some (false, world0) :=
  waitForBytesWritten_nothing_queued 32768 50 ArmReply.accepted [] world0 rfl rfl

/-! ## Rejected arming of a watch or a read -/

/-- The ceiling check of `startAsyncRead` passes when the accumulator is unbounded or below
the ceiling. -/
theorem startAsyncRead_guard_false (QSERIALPORT_BUFFERSIZE : Nat) (w : World)
    (hroom : w.d.readBufferMaxSize = 0 ∨ (w.d.buffer.length : Int) < w.d.readBufferMaxSize) :
    (decide (w.d.readBufferMaxSize ≠ 0) &&
      decide ((QSERIALPORT_BUFFERSIZE : Int) >
        w.d.readBufferMaxSize - (w.d.buffer.length : Int)) &&
      decide ((if (decide (w.d.readBufferMaxSize ≠ 0) &&
          decide ((QSERIALPORT_BUFFERSIZE : Int) >
            w.d.readBufferMaxSize - (w.d.buffer.length : Int))) = true
        then w.d.readBufferMaxSize - (w.d.buffer.length : Int)
        else (QSERIALPORT_BUFFERSIZE : Int)) ≤ 0)) = false := by
  rw [Bool.eq_false_iff]
  intro h
  simp only [Bool.and_eq_true, decide_eq_true_eq] at h
  obtain ⟨⟨h1, h2⟩, h3⟩ := h
  rw [if_pos ⟨h1, h2⟩] at h3
  rcases hroom with h | h
  · exact h1 h
  · omega

/-- C10: when the system rejects the arming call of `startAsyncCommunication` (issued when the
watch is not started) or of `startAsyncRead` (issued when the read is not started and the
ceiling is not met) with the access-denied code, the operation returns failure, the error
recorded is `ResourceError`, not `PermissionError`, and the started flag is false; when it
rejects it with a code classified as `NoError`, the operation returns success, the started flag
is false and neither the current error nor the emitted signals change. Each of the four parts
only assumes that its own arming call is issued. -/
theorem arming_rejected (QSERIALPORT_BUFFERSIZE : Nat) (w : World) (e : Nat) :
    (w.d.communicationStarted = false →
     (startAsyncCommunication (ArmReply.rejected 5) w).1 = false ∧
     (startAsyncCommunication (ArmReply.rejected 5) w).2.d.error
        = SerialPortError.ResourceError ∧
     (startAsyncCommunication (ArmReply.rejected 5) w).2.d.error
        ≠ SerialPortError.PermissionError ∧
     (startAsyncCommunication (ArmReply.rejected 5) w).2.d.communicationStarted = false) ∧
    (w.d.readStarted = false →
     (w.d.readBufferMaxSize = 0 ∨ (w.d.buffer.length : Int) < w.d.readBufferMaxSize) →
     (startAsyncRead QSERIALPORT_BUFFERSIZE (ArmReply.rejected 5) w).1 = false ∧
     (startAsyncRead QSERIALPORT_BUFFERSIZE (ArmReply.rejected 5) w).2.d.error
        = SerialPortError.ResourceError ∧
     (startAsyncRead QSERIALPORT_BUFFERSIZE (ArmReply.rejected 5) w).2.d.error
        ≠ SerialPortError.PermissionError ∧
     (startAsyncRead QSERIALPORT_BUFFERSIZE (ArmReply.rejected 5) w).2.d.readStarted = false) ∧
    (w.d.communicationStarted = false →
     (getSystemError e (-1)).errorCode = SerialPortError.NoError →
     (startAsyncCommunication (ArmReply.rejected e) w).1 = true ∧
     (startAsyncCommunication (ArmReply.rejected e) w).2.d.error = w.d.error ∧
     (startAsyncCommunication (ArmReply.rejected e) w).2.emitted = w.emitted ∧
     (startAsyncCommunication (ArmReply.rejected e) w).2.d.communicationStarted = false) ∧
    (w.d.readStarted = false →
     (w.d.readBufferMaxSize = 0 ∨ (w.d.buffer.length : Int) < w.d.readBufferMaxSize) →
     (getSystemError e (-1)).errorCode = SerialPortError.NoError →
     (startAsyncRead QSERIALPORT_BUFFERSIZE (ArmReply.rejected e) w).1 = true ∧
     (startAsyncRead QSERIALPORT_BUFFERSIZE (ArmReply.rejected e) w).2.d.error = w.d.error ∧
     (startAsyncRead QSERIALPORT_BUFFERSIZE (ArmReply.rejected e) w).2.emitted = w.emitted ∧
     (startAsyncRead QSERIALPORT_BUFFERSIZE (ArmReply.rejected e) w).2.d.readStarted
        = false) := by
  have h5 : (getSystemError 5 (-1)).errorCode = SerialPortError.PermissionError := by decide
  refine ⟨?_, ?_, ?_, ?_⟩
  · intro hwatch
    simp [startAsyncCommunication, hwatch, osArm, obtainOverlapped, h5, setError]
  · intro hread hroom
    have hg := startAsyncRead_guard_false QSERIALPORT_BUFFERSIZE w hroom
    unfold startAsyncRead
    simp only [hread, hg, osArm, h5, setError]
    simp
  · intro hwatch he
    simp [startAsyncCommunication, hwatch, osArm, obtainOverlapped, he]
  · intro hread hroom he
    have hg := startAsyncRead_guard_false QSERIALPORT_BUFFERSIZE w hroom
    unfold startAsyncRead
    simp only [hread, hg, osArm, he]
    simp

/-- Witness of `arming_rejected`: on `world0` (unbounded accumulator, nothing started), with
access denied (5) for the watch and the read, and `ERROR_IO_PENDING` (997) as the code
classified as `NoError`. -/
theorem arming_rejected_witness :
    ((startAsyncCommunication (ArmReply.rejected 5) world0).1 = false ∧
     (startAsyncCommunication (ArmReply.rejected 5) world0).2.d.error
       = SerialPortError.ResourceError) ∧
    ((startAsyncRead 32768 (ArmReply.rejected 5) world0).1 = false ∧
     (startAsyncRead 32768 (ArmReply.rejected 5) world0).2.d.error
       = SerialPortError.ResourceError) ∧
    (startAsyncCommunication (ArmReply.rejected 997) world0).1 = true ∧
    (startAsyncRead 32768 (ArmReply.rejected 997) world0).1 = true :=
  ⟨⟨((arming_rejected 32768 world0 997).1 rfl).1, ((arming_rejected 32768 world0 997).1 rfl).2.1⟩,
   ⟨((arming_rejected 32768 world0 997).2.1 rfl (Or.inl rfl)).1,
    ((arming_rejected 32768 world0 997).2.1 rfl (Or.inl rfl)).2.1⟩,
   ((arming_rejected 32768 world0 997).2.2.1 rfl (by decide)).1,
   ((arming_rejected 32768 world0 997).2.2.2 rfl (Or.inl rfl) (by decide)).1⟩

/-! ## At most one request of each kind -/

theorem obtainOverlapped_some (t : Nat) (os : Os) : obtainOverlapped (some t) os = (t, os) := rfl

theorem obtainOverlapped_none (os : Os) :
    obtainOverlapped none os = (os.nextOverlapped, { os with nextOverlapped := os.nextOverlapped + 1 }) :=
  rfl

theorem obtainOverlapped_pending (pointer : Option Nat) (os : Os) :
    (obtainOverlapped pointer os).2.pending = os.pending := by
  cases pointer <;> rfl

theorem osArm_nextOverlapped (call : OsCall) (request : Request) (reply : ArmReply) (os : Os) :
    (osArm call request reply os).nextOverlapped = os.nextOverlapped := by
  cases reply <;> rfl

theorem osArm_pending_accepted (call : OsCall) (request : Request) (os : Os) :
    (osArm call request ArmReply.accepted os).pending = os.pending ++ [request] := rfl

theorem osArm_pending_rejected (call : OsCall) (request : Request) (e : Nat) (os : Os) :
    (osArm call request (ArmReply.rejected e) os).pending = os.pending := rfl

theorem countP_erase_add_one (p : Request → Bool) (l : List Request) (r : Request)
    (hr : r ∈ l) (hpr : p r = true) : (l.erase r).countP p + 1 = l.countP p := by
  induction l with
  | nil => simp at hr
  | cons x xs ih =>
      by_cases hx : x = r
      · subst hx
        simp [List.countP_cons, hpr]
      · have hmem : r ∈ xs := by
          rcases List.mem_cons.mp hr with h | h
          · exact absurd h.symm hx
          · exact h
        have hne : (x == r) = false := by simpa using hx
        rw [List.erase_cons, hne]
        simp only [Bool.false_eq_true, ↓reduceIte, List.countP_cons]
        have := ih hmem
        omega

/-- With a valid handle, a kind that is not started has no outstanding request. -/
theorem Coherent.armedCount_eq_zero {w : World} (h : Coherent w) (hh : w.d.handle ≠ none)
    (k : Kind) (hs : startedOf k w.d = false) : armedCount k w = 0 := by
  unfold armedCount
  rw [List.countP_eq_zero]
  intro r hr hk
  have := (h.owned hh r hr).1
  simp only [decide_eq_true_eq] at hk
  rw [hk, hs] at this
  exact Bool.noConfusion this

/-- Coherence only depends on the handle, the flags, the pointers, the outstanding requests and
the allocation counter; the flags only matter for the kinds that have an outstanding
request. -/
theorem Coherent.congr {w v : World} (h : Coherent w)
    (hh : v.d.handle = w.d.handle)
    (hfl : ∀ r ∈ w.os.pending, startedOf r.kind v.d = startedOf r.kind w.d)
    (htk : ∀ k, overlappedOf k v.d = overlappedOf k w.d)
    (hp : v.os.pending = w.os.pending)
    (hn : v.os.nextOverlapped = w.os.nextOverlapped) : Coherent v := by
  refine ⟨?_, ?_, ?_, ?_⟩
  · intro k
    have := h.atMostOne k
    unfold armedCount at this ⊢
    rwa [hp]
  · intro hv r hr
    rw [hp] at hr
    rw [hh] at hv
    have := h.owned hv r hr
    rw [hfl r hr, htk]
    exact this
  · intro k1 k2 t h1 h2
    rw [htk] at h1 h2
    exact h.distinct k1 k2 t h1 h2
  · intro k t h1
    rw [htk] at h1
    rw [hn]
    exact h.allocated k t h1

/-- Completing a request keeps coherence. -/
theorem Coherent.erase {w v : World} (h : Coherent w) (r : Request)
    (hd : v.d.handle = w.d.handle)
    (hfl : ∀ k, startedOf k v.d = startedOf k w.d)
    (htk : ∀ k, overlappedOf k v.d = overlappedOf k w.d)
    (hp : v.os.pending = w.os.pending.erase r)
    (hn : v.os.nextOverlapped = w.os.nextOverlapped) : Coherent v := by
  refine ⟨?_, ?_, ?_, ?_⟩
  · intro k
    have := h.atMostOne k
    unfold armedCount at this ⊢
    rw [hp]
    exact le_trans (List.Sublist.countP_le _ (List.erase_sublist r _)) this
  · intro hv r1 hr1
    rw [hp] at hr1
    rw [hd] at hv
    have := h.owned hv r1 (List.mem_of_mem_erase hr1)
    rw [hfl, htk]
    exact this
  · intro k1 k2 t h1 h2
    rw [htk] at h1 h2
    exact h.distinct k1 k2 t h1 h2
  · intro k t h1
    rw [htk] at h1
    rw [hn]
    exact h.allocated k t h1

/-- Once the outstanding request of a kind is completed, none of that kind is left. -/
theorem Coherent.armedCount_erase {w v : World} (h : Coherent w) (r : Request)
    (hr : r ∈ w.os.pending) (hp : v.os.pending = w.os.pending.erase r) :
    armedCount r.kind v = 0 := by
  have h1 := h.atMostOne r.kind
  unfold armedCount at h1 ⊢
  have h2 := countP_erase_add_one (fun x : Request => decide (x.kind = r.kind))
    w.os.pending r hr (by simp)
  rw [hp]
  omega

/-- Arming a kind that is not started keeps coherence, whether the system accepts the request
(on a valid handle) or rejects it. -/
theorem Coherent.arm {w v : World} (h : Coherent w) (k : Kind) (sz : Nat)
    (hs : startedOf k w.d = false)
    (hh : v.d.handle = w.d.handle)
    (hfl : ∀ k1, k1 ≠ k → startedOf k1 v.d = startedOf k1 w.d)
    (htk : ∀ k1, k1 ≠ k → overlappedOf k1 v.d = overlappedOf k1 w.d)
    (htok : overlappedOf k v.d = some (obtainOverlapped (overlappedOf k w.d) w.os).1)
    (hn : v.os.nextOverlapped = (obtainOverlapped (overlappedOf k w.d) w.os).2.nextOverlapped)
    (hp : (v.os.pending = w.os.pending ++ [⟨k, (obtainOverlapped (overlappedOf k w.d) w.os).1, sz⟩]
            ∧ startedOf k v.d = true ∧ w.d.handle ≠ none) ∨
          (v.os.pending = w.os.pending ∧ startedOf k v.d = false)) : Coherent v := by
  -- the pointer of kind `k` is the old one, or a fresh one
  have hcase : (overlappedOf k v.d = overlappedOf k w.d ∧
        v.os.nextOverlapped = w.os.nextOverlapped) ∨
      (overlappedOf k w.d = none ∧ overlappedOf k v.d = some w.os.nextOverlapped ∧
        v.os.nextOverlapped = w.os.nextOverlapped + 1) := by
    cases hk : overlappedOf k w.d with
    | none => right; rw [hk] at htok hn; exact ⟨rfl, htok, hn⟩
    | some t => left; rw [hk] at htok hn; exact ⟨htok, hn⟩
  have hnle : w.os.nextOverlapped ≤ v.os.nextOverlapped := by
    rcases hcase with ⟨_, h2⟩ | ⟨_, _, h2⟩ <;> omega
  refine ⟨?_, ?_, ?_, ?_⟩
  · intro k1
    rcases hp with ⟨hp, _, hv⟩ | ⟨hp, _⟩
    · unfold armedCount
      rw [hp, List.countP_append]
      by_cases hk : k1 = k
      · subst hk
        have h0 := h.armedCount_eq_zero hv k1 hs
        unfold armedCount at h0
        rw [h0]
        simp
      · have h1 := h.atMostOne k1
        unfold armedCount at h1
        have : ¬ k = k1 := fun e => hk e.symm
        simp [List.countP_cons, this]
        exact h1
    · have h1 := h.atMostOne k1
      unfold armedCount at h1 ⊢
      rwa [hp]
  · intro hv r hr
    rw [hh] at hv
    have hold : ∀ r ∈ w.os.pending,
        startedOf r.kind v.d = true ∧ overlappedOf r.kind v.d = some r.overlapped := by
      intro r hr
      have ho := h.owned hv r hr
      by_cases hk : r.kind = k
      · exfalso
        rw [hk, hs] at ho
        exact Bool.noConfusion ho.1
      · rw [hfl _ hk, htk _ hk]
        exact ho
    rcases hp with ⟨hp, hst, _⟩ | ⟨hp, _⟩
    · rw [hp] at hr
      rcases List.mem_append.mp hr with hr | hr
      · exact hold r hr
      · rw [List.mem_singleton] at hr
        subst hr
        exact ⟨hst, htok⟩
    · rw [hp] at hr
      exact hold r hr
  · intro k1 k2 t h1 h2
    by_cases e1 : k1 = k <;> by_cases e2 : k2 = k
    · rw [e1, e2]
    · exfalso
      rw [e1] at h1
      rw [htk _ e2] at h2
      rcases hcase with ⟨hc, _⟩ | ⟨_, hc, _⟩
      · rw [hc] at h1
        exact e2 (h.distinct k2 k t h2 h1)
      · rw [hc] at h1
        have := h.allocated k2 t h2
        simp only [Option.some.injEq] at h1
        omega
    · exfalso
      rw [e2] at h2
      rw [htk _ e1] at h1
      rcases hcase with ⟨hc, _⟩ | ⟨_, hc, _⟩
      · rw [hc] at h2
        exact e1 (h.distinct k1 k t h1 h2)
      · rw [hc] at h2
        have := h.allocated k1 t h1
        simp only [Option.some.injEq] at h2
        omega
    · rw [htk _ e1] at h1
      rw [htk _ e2] at h2
      exact h.distinct k1 k2 t h1 h2
  · intro k1 t h1
    by_cases e1 : k1 = k
    · rw [e1] at h1
      rcases hcase with ⟨hc, _⟩ | ⟨_, hc, hc2⟩
      · rw [hc] at h1
        have := h.allocated k t h1
        omega
      · rw [hc] at h1
        simp only [Option.some.injEq] at h1
        omega
    · rw [htk _ e1] at h1
      have := h.allocated k1 t h1
      omega

theorem setError_d_fields (e : QSerialPortErrorInfo) (w : World) :
    (setError e w).d.handle = w.d.handle ∧
    (∀ k, startedOf k (setError e w).d = startedOf k w.d) ∧
    (∀ k, overlappedOf k (setError e w).d = overlappedOf k w.d) ∧
    (setError e w).os = w.os ∧
    (setError e w).d.buffer = w.d.buffer ∧
    (setError e w).d.readBufferMaxSize = w.d.readBufferMaxSize := by
  refine ⟨rfl, ?_, ?_, rfl, rfl, rfl⟩ <;> intro k <;> cases k <;> rfl

theorem Coherent.keep_setError {w : World} (h : Coherent w) (e : QSerialPortErrorInfo) :
    Coherent (setError e w) := by
  obtain ⟨h1, h2, h3, h4, _, _⟩ := setError_d_fields e w
  exact h.congr h1 (fun r _ => h2 r.kind) h3 (by rw [h4]) (by rw [h4])

theorem startAsyncCommunication_coherent (reply : ArmReply) (w : World) (h : Coherent w)
    (hv : reply = ArmReply.accepted → w.d.handle ≠ none) :
    Coherent (startAsyncCommunication reply w).2 := by
  unfold startAsyncCommunication
  by_cases hs : w.d.communicationStarted = true
  · simp only [hs, ↓reduceIte]
    exact h
  · have hs1 : startedOf Kind.Watch w.d = false := by simpa [startedOf] using hs
    simp only [hs, Bool.false_eq_true, ↓reduceIte]
    cases reply with
    | accepted =>
        refine h.arm Kind.Watch 0 hs1 rfl ?_ ?_ rfl ?_ (Or.inl ⟨?_, rfl, hv rfl⟩)
        · intro k hk; cases k <;> first | rfl | exact absurd rfl hk
        · intro k hk; cases k <;> first | rfl | exact absurd rfl hk
        · simp [osArm, overlappedOf]
        · simp [osArm, overlappedOf, obtainOverlapped_pending]
    | rejected e =>
        have key : Coherent
            { w with
              d := { w.d with
                communicationCompletionOverlapped :=
                  some (obtainOverlapped w.d.communicationCompletionOverlapped w.os).1,
                communicationStarted := false }
              os := osArm (OsCall.waitCommEvent
                  (obtainOverlapped w.d.communicationCompletionOverlapped w.os).1)
                ⟨Kind.Watch, (obtainOverlapped w.d.communicationCompletionOverlapped w.os).1, 0⟩
                (ArmReply.rejected e)
                (obtainOverlapped w.d.communicationCompletionOverlapped w.os).2 } := by
          refine h.arm Kind.Watch 0 hs1 rfl ?_ ?_ rfl ?_ (Or.inr ⟨?_, rfl⟩)
          · intro k hk; cases k <;> first | rfl | exact absurd rfl hk
          · intro k hk; cases k <;> first | rfl | exact absurd rfl hk
          · simp [osArm, overlappedOf]
          · simp [osArm, overlappedOf, obtainOverlapped_pending]
        dsimp only
        split_ifs
        · exact key.keep_setError _
        · exact key.keep_setError _
        · exact key

theorem startAsyncRead_coherent (QSERIALPORT_BUFFERSIZE : Nat) (reply : ArmReply) (w : World)
    (h : Coherent w) (hv : reply = ArmReply.accepted → w.d.handle ≠ none) :
    Coherent (startAsyncRead QSERIALPORT_BUFFERSIZE reply w).2 := by
  unfold startAsyncRead
  by_cases hs : w.d.readStarted = true
  · simp only [hs, ↓reduceIte]
    exact h
  · have hs1 : startedOf Kind.Read w.d = false := by simpa [startedOf] using hs
    simp only [hs, Bool.false_eq_true, ↓reduceIte]
    have hfl : ∀ (d : QSerialPortPrivate) (t : Option Nat) (b : Bool) (k : Kind),
        k ≠ Kind.Read →
        startedOf k { d with readCompletionOverlapped := t, readStarted := b }
          = startedOf k d := by
      intro d t b k hk; cases k <;> first | rfl | exact absurd rfl hk
    have htk : ∀ (d : QSerialPortPrivate) (t : Option Nat) (b : Bool) (k : Kind),
        k ≠ Kind.Read →
        overlappedOf k { d with readCompletionOverlapped := t, readStarted := b }
          = overlappedOf k d := by
      intro d t b k hk; cases k <;> first | rfl | exact absurd rfl hk
    cases reply with
    | accepted =>
        dsimp only
        split_ifs
        all_goals first
          | exact h
          | (refine h.arm Kind.Read
              (toDWORD (w.d.readBufferMaxSize - (w.d.buffer.length : Int))) hs1 rfl
              (hfl _ _ _) (htk _ _ _) rfl ?_ (Or.inl ⟨?_, rfl, hv rfl⟩)
             · simp [osArm, overlappedOf]
             · simp only [osArm, overlappedOf, obtainOverlapped_pending])
          | (refine h.arm Kind.Read (toDWORD (QSERIALPORT_BUFFERSIZE : Int)) hs1 rfl
              (hfl _ _ _) (htk _ _ _) rfl ?_ (Or.inl ⟨?_, rfl, hv rfl⟩)
             · simp [osArm, overlappedOf]
             · simp only [osArm, overlappedOf, obtainOverlapped_pending])
    | rejected e =>
        dsimp only
        split_ifs
        all_goals first
          | exact h
          | apply Coherent.keep_setError
          | skip
        all_goals first
          | exact h
          | (refine h.arm Kind.Read 0 hs1 rfl (hfl _ _ _) (htk _ _ _) rfl ?_
              (Or.inr ⟨?_, rfl⟩)
             · simp [osArm, overlappedOf]
             · simp [osArm, overlappedOf, obtainOverlapped_pending])

theorem startAsyncWrite_coherent (reply : ArmReply) (w : World)
    (h : Coherent w) (hv : reply = ArmReply.accepted → w.d.handle ≠ none) :
    Coherent (_q_startAsyncWrite reply w).2 := by
  unfold _q_startAsyncWrite
  split
  · exact h
  · rename_i hg
    have hs1 : startedOf Kind.Write w.d = false := by
      simp only [Bool.or_eq_true, not_or, Bool.not_eq_true] at hg
      exact hg.2
    have hfl : ∀ (d : QSerialPortPrivate) (c : List Byte) (q : ChunkedByteBuffer)
        (t : Option Nat) (b : Bool) (k : Kind), k ≠ Kind.Write →
        startedOf k { d with writeChunkBuffer := c, writeBuffer := q,
                             writeCompletionOverlapped := t, writeStarted := b }
          = startedOf k d := by
      intro d c q t b k hk; cases k <;> first | rfl | exact absurd rfl hk
    have htk : ∀ (d : QSerialPortPrivate) (c : List Byte) (q : ChunkedByteBuffer)
        (t : Option Nat) (b : Bool) (k : Kind), k ≠ Kind.Write →
        overlappedOf k { d with writeChunkBuffer := c, writeBuffer := q,
                                writeCompletionOverlapped := t, writeStarted := b }
          = overlappedOf k d := by
      intro d c q t b k hk; cases k <;> first | rfl | exact absurd rfl hk
    cases reply with
    | accepted =>
        refine h.arm Kind.Write (toDWORD (w.d.writeBuffer.read.1.length : Int)) hs1 rfl
          (hfl _ _ _ _ _) (htk _ _ _ _ _) rfl ?_ (Or.inl ⟨?_, rfl, hv rfl⟩)
        · simp [osArm, overlappedOf]
        · simp only [osArm, overlappedOf, obtainOverlapped_pending]
    | rejected e =>
        dsimp only
        split_ifs
        all_goals first
          | apply Coherent.keep_setError
          | skip
        all_goals
          refine h.arm Kind.Write 0 hs1 rfl (hfl _ _ _ _ _) (htk _ _ _ _ _) rfl ?_
            (Or.inr ⟨?_, rfl⟩)
        all_goals simp [osArm, overlappedOf, obtainOverlapped_pending]

/-- Clearing the started flag of a kind that has no outstanding request keeps coherence. -/
theorem Coherent.unstart {w v : World} (h : Coherent w) (k : Kind)
    (h0 : w.d.handle ≠ none → armedCount k w = 0)
    (hh : v.d.handle = w.d.handle)
    (hfl : ∀ k1, k1 ≠ k → startedOf k1 v.d = startedOf k1 w.d)
    (htk : ∀ k1, overlappedOf k1 v.d = overlappedOf k1 w.d)
    (hp : v.os.pending = w.os.pending)
    (hn : v.os.nextOverlapped = w.os.nextOverlapped) : Coherent v := by
  refine ⟨?_, ?_, ?_, ?_⟩
  · intro k1
    have := h.atMostOne k1
    unfold armedCount at this ⊢
    rwa [hp]
  · intro hv r hr
    rw [hp] at hr
    rw [hh] at hv
    have ho := h.owned hv r hr
    have hk : r.kind ≠ k := by
      intro e
      have hz := h0 hv
      unfold armedCount at hz
      rw [List.countP_eq_zero] at hz
      exact hz r hr (by simpa using e)
    rw [hfl _ hk, htk]
    exact ho
  · intro k1 k2 t h1 h2
    rw [htk] at h1 h2
    exact h.distinct k1 k2 t h1 h2
  · intro k1 t h1
    rw [htk] at h1
    rw [hn]
    exact h.allocated k1 t h1

theorem Coherent.keep_emitReadyRead {w : World} (h : Coherent w) : Coherent (emitReadyRead w) :=
  h.congr rfl (fun _ _ => rfl) (fun k => by cases k <;> rfl) rfl rfl

theorem Coherent.keep_queuedBytesCount {w : World} (h : Coherent w) (direction : Nat)
    (comstat : Option COMSTAT) : Coherent (queuedBytesCount direction comstat w).2 :=
  h.congr rfl (fun _ _ => rfl) (fun k => by cases k <;> rfl) rfl rfl

theorem completeAsyncCommunication_coherent (QSERIALPORT_BUFFERSIZE : Nat)
    (bytesTransferred : Int) (reply : ArmReply) (w : World) (h : Coherent w)
    (h0 : w.d.handle ≠ none → armedCount Kind.Watch w = 0)
    (hv : reply = ArmReply.accepted → w.d.handle ≠ none) :
    Coherent (completeAsyncCommunication QSERIALPORT_BUFFERSIZE bytesTransferred reply w).2 := by
  have h1 : Coherent { w with d := { w.d with communicationStarted := false } } := by
    refine h.unstart Kind.Watch h0 rfl ?_ ?_ rfl rfl
    · intro k hk; cases k <;> first | rfl | exact absurd rfl hk
    · intro k; cases k <;> rfl
  unfold completeAsyncCommunication
  dsimp only
  split_ifs
  · exact h1
  · exact startAsyncRead_coherent _ _ _ h1 hv

theorem completeAsyncWrite_coherent (bytesTransferred : Int) (reply : ArmReply) (w : World)
    (h : Coherent w) (h0 : w.d.handle ≠ none → armedCount Kind.Write w = 0)
    (hv : reply = ArmReply.accepted → w.d.handle ≠ none) :
    Coherent (completeAsyncWrite bytesTransferred reply w).2 := by
  unfold completeAsyncWrite
  dsimp only
  split_ifs
  · refine h.unstart Kind.Write h0 rfl ?_ ?_ rfl rfl
    · intro k hk; cases k <;> first | rfl | exact absurd rfl hk
    · intro k; cases k <;> rfl
  · refine startAsyncWrite_coherent _ _ ?_ hv
    refine h.unstart Kind.Write h0 rfl ?_ ?_ rfl rfl
    · intro k hk; cases k <;> first | rfl | exact absurd rfl hk
    · intro k; cases k <;> rfl
  · refine startAsyncWrite_coherent _ _ ?_ hv
    exact h.congr rfl (fun _ _ => rfl) (fun k => by cases k <;> rfl) rfl rfl

theorem completeAsyncRead_coherent (QSERIALPORT_BUFFERSIZE : Nat) (bytesTransferred : Int)
    (comstat : Option COMSTAT) (reply : ArmReply) (w : World) (h : Coherent w)
    (h0 : w.d.handle ≠ none → armedCount Kind.Read w = 0)
    (hv : reply = ArmReply.accepted → w.d.handle ≠ none) :
    Coherent (completeAsyncRead QSERIALPORT_BUFFERSIZE bytesTransferred comstat reply w).2 := by
  have h1 : ∀ (n : Int) (b : List Byte),
      Coherent { w with d := { w.d with readBytesTransferred := n, buffer := b,
                                        readStarted := false } } := by
    intro n b
    refine h.unstart Kind.Read h0 rfl ?_ ?_ rfl rfl
    · intro k hk; cases k <;> first | rfl | exact absurd rfl hk
    · intro k; cases k <;> rfl
  unfold completeAsyncRead
  dsimp only
  split_ifs
  all_goals first
    | exact h1 _ _
    | apply Coherent.keep_emitReadyRead
    | skip
  all_goals first
    | exact h1 _ _
    | exact startAsyncRead_coherent _ _ _ (h1 _ _) hv
    | exact startAsyncRead_coherent _ _ _ ((h1 _ _).keep_queuedBytesCount _ _) hv
    | exact startAsyncCommunication_coherent _ _ ((h1 _ _).keep_queuedBytesCount _ _) hv

theorem handleNotification_coherent (QSERIALPORT_BUFFERSIZE : Nat)
    (bytesTransferred errorCode overlapped : Nat) (comstat : Option COMSTAT)
    (reply : ArmReply) (w : World) (h : Coherent w)
    (h0 : w.d.handle ≠ none → ∀ k, overlappedOf k w.d = some overlapped → armedCount k w = 0)
    (hv : reply = ArmReply.accepted → w.d.handle ≠ none) :
    Coherent (handleNotification QSERIALPORT_BUFFERSIZE bytesTransferred errorCode overlapped
      comstat reply w) := by
  unfold handleNotification
  dsimp only
  split_ifs with hh he h1 h2 h3
  · exact h
  · exact h.keep_setError _
  · exact completeAsyncCommunication_coherent _ _ _ _ h
      (fun hv1 => h0 hv1 Kind.Watch h1.symm) hv
  · exact completeAsyncRead_coherent _ _ _ _ _ h (fun hv1 => h0 hv1 Kind.Read h2.symm) hv
  · exact completeAsyncWrite_coherent _ _ _ h (fun hv1 => h0 hv1 Kind.Write h3.symm) hv
  · exact h

theorem ioCompletionRoutine_coherent (QSERIALPORT_BUFFERSIZE : Nat)
    (errorCode bytesTransfered overlapped : Nat) (comstat : Option COMSTAT)
    (reply : ArmReply) (w : World) (h : Coherent w)
    (h0 : w.d.handle ≠ none → ∀ k, overlappedOf k w.d = some overlapped → armedCount k w = 0)
    (hv : reply = ArmReply.accepted → w.d.handle ≠ none) :
    Coherent (ioCompletionRoutine QSERIALPORT_BUFFERSIZE errorCode bytesTransfered overlapped
      comstat reply w) := by
  unfold ioCompletionRoutine
  split_ifs with hdet
  · exact h.congr rfl (fun _ _ => rfl) (fun _ => rfl) rfl rfl
  · exact handleNotification_coherent _ _ _ _ _ _ _ h h0 hv

theorem deliver_coherent (QSERIALPORT_BUFFERSIZE : Nat) (c : Completion) (w : World)
    (h : Coherent w) (hr : c.request ∈ w.os.pending)
    (hv : c.reply = ArmReply.accepted → w.d.handle ≠ none) :
    Coherent (deliver QSERIALPORT_BUFFERSIZE c w) := by
  have hd : ∀ d1 : QSerialPortPrivate,
      d1 = (if c.request.kind = Kind.Read then
          { w.d with readChunkBuffer := c.data ++ w.d.readChunkBuffer.drop c.data.length }
        else w.d) →
      d1.handle = w.d.handle ∧ (∀ k, startedOf k d1 = startedOf k w.d) ∧
        (∀ k, overlappedOf k d1 = overlappedOf k w.d) := by
    intro d1 e
    subst e
    split_ifs
    · exact ⟨rfl, fun k => by cases k <;> rfl, fun k => by cases k <;> rfl⟩
    · exact ⟨rfl, fun _ => rfl, fun _ => rfl⟩
  obtain ⟨hd1, hd2, hd3⟩ := hd _ rfl
  have h1 : Coherent
      { w with
        os := { w.os with pending := w.os.pending.erase c.request }
        d := if c.request.kind = Kind.Read then
               { w.d with readChunkBuffer := c.data ++ w.d.readChunkBuffer.drop c.data.length }
             else w.d } :=
    h.erase c.request hd1 hd2 hd3 rfl rfl
  unfold deliver
  refine ioCompletionRoutine_coherent _ _ _ _ _ _ _ h1 ?_ ?_
  · intro hv1 k hk
    have hv2 : w.d.handle ≠ none := by
      intro e
      apply hv1
      show (if c.request.kind = Kind.Read then _ else w.d).handle = none
      rw [hd1, e]
    have ho := (h.owned hv2 c.request hr).2
    have hk1 : overlappedOf k w.d = some c.request.overlapped := by
      rw [← hd3 k]
      exact hk
    have := h.distinct k c.request.kind _ hk1 ho
    rw [this]
    exact h.armedCount_erase c.request hr rfl
  · intro e
    have := hv e
    show (if c.request.kind = Kind.Read then _ else w.d).handle ≠ none
    rw [hd1]
    exact this

theorem close_coherent (a b : CallReply) (w : World) (h : Coherent w) :
    Coherent (close a b w) := by
  refine ⟨?_, ?_, ?_, ?_⟩
  · intro k
    have := h.atMostOne k
    unfold armedCount at this ⊢
    rwa [close_pending]
  · intro hv
    exact absurd rfl hv
  · intro k1 k2 t h1
    cases k1 <;> simp [close, overlappedOf] at h1
  · intro k t h1
    cases k <;> simp [close, overlappedOf] at h1

theorem writeData_coherent (data : List Byte) (w : World) (h : Coherent w) :
    Coherent (writeData data w).2 := by
  unfold writeData
  dsimp only
  split_ifs
  · exact h.congr rfl (fun _ _ => rfl) (fun k => by cases k <;> rfl) rfl rfl
  · exact h.congr rfl (fun _ _ => rfl) (fun k => by cases k <;> rfl) rfl rfl

theorem callerRead_coherent (n : Nat) (w : World) (h : Coherent w) :
    Coherent (callerRead n w) :=
  h.congr rfl (fun _ _ => rfl) (fun k => by cases k <;> rfl) rfl rfl

theorem step_coherent (QSERIALPORT_BUFFERSIZE : Nat) (op : Op) (w : World) (h : Coherent w)
    (he : enabled op w) : Coherent (step QSERIALPORT_BUFFERSIZE op w) := by
  obtain ⟨he1, he2⟩ := he
  cases op with
  | startAsyncCommunication reply =>
      exact startAsyncCommunication_coherent _ _ h (fun e => he1 (by rw [e]; rfl))
  | startAsyncRead reply =>
      exact startAsyncRead_coherent _ _ _ h (fun e => he1 (by rw [e]; rfl))
  | startAsyncWrite reply =>
      exact startAsyncWrite_coherent _ _ h (fun e => he1 (by rw [e]; rfl))
  | completion c =>
      exact deliver_coherent _ _ _ h (he2 c rfl) (fun e => he1 (by rw [← e]; rfl))
  | close a b => exact close_coherent _ _ _ h
  | writeData data => exact writeData_coherent _ _ h
  | callerRead n => exact callerRead_coherent _ _ h

theorem run_coherent (QSERIALPORT_BUFFERSIZE : Nat) (ops : List Op) :
    ∀ w : World, Coherent w → Admissible QSERIALPORT_BUFFERSIZE ops w →
      Coherent (run QSERIALPORT_BUFFERSIZE ops w) := by
  induction ops with
  | nil => intro w h _; exact h
  | cons op ops ih =>
      intro w h ha
      exact ih _ (step_coherent _ _ _ h ha.1) ha.2

theorem Idle.coherent {w : World} (h : Idle w) : Coherent w := by
  obtain ⟨h1, h2, h3, h4⟩ := h
  refine ⟨?_, ?_, ?_, ?_⟩
  · intro k
    simp [armedCount, h1]
  · intro _ r hr
    rw [h1] at hr
    exact absurd hr (List.not_mem_nil r)
  · intro k1 k2 t e
    cases k1 <;> simp [overlappedOf, h2, h3, h4] at e
  · intro k t e
    cases k <;> simp [overlappedOf, h2, h3, h4] at e

/-- C4: from every coherent state (in particular from a port on which nothing is armed), along
every sequence of start operations, delivered completions of outstanding requests, `close`,
writes and reads by the caller, in which the system accepts a request only on a valid handle,
at most one Watch, one Read and one Write request is outstanding after every step; and in
every state a start operation whose kind is already started returns success and leaves the
whole world unchanged, so it arms no second request. -/
theorem at_most_one_armed (QSERIALPORT_BUFFERSIZE : Nat) (ops : List Op) (w : World)
    (h : Coherent w) (ha : Admissible QSERIALPORT_BUFFERSIZE ops w) :
    (∀ k, armedCount k (run QSERIALPORT_BUFFERSIZE ops w) ≤ 1) ∧
    (∀ (reply : ArmReply) (v : World),
      (v.d.communicationStarted = true → startAsyncCommunication reply v = (true, v)) ∧
      (v.d.readStarted = true → startAsyncRead QSERIALPORT_BUFFERSIZE reply v = (true, v)) ∧
      (v.d.writeStarted = true → _q_startAsyncWrite reply v = (true, v))) := by
  refine ⟨(run_coherent _ ops w h ha).atMostOne, ?_⟩
  intro reply v
  refine ⟨?_, ?_, ?_⟩
  · intro hs
    simp [startAsyncCommunication, hs]
  · intro hs
    simp [startAsyncRead, hs]
  · intro hs
    simp [_q_startAsyncWrite, hs]

/-- Witness of `at_most_one_armed`: on `world0` a watch is armed, armed again, and its
completion delivered. -/
theorem at_most_one_armed_witness :
    armedCount Kind.Watch
      (run 32768
        [Op.startAsyncCommunication ArmReply.accepted,
         Op.startAsyncCommunication ArmReply.accepted,
         Op.completion ⟨⟨Kind.Watch, 0, 0⟩, 0, 0, [], none, ArmReply.accepted⟩]
        world0) ≤ 1 :=
  (at_most_one_armed 32768
    [Op.startAsyncCommunication ArmReply.accepted,
     Op.startAsyncCommunication ArmReply.accepted,
     Op.completion ⟨⟨Kind.Watch, 0, 0⟩, 0, 0, [], none, ArmReply.accepted⟩]
    world0 (Idle.coherent ⟨rfl, rfl, rfl, rfl⟩)
    ⟨⟨fun _ => by decide, fun c e => by cases e⟩,
     ⟨fun _ => by decide, fun c e => by cases e⟩,
     ⟨fun _ => by decide, fun c e => by cases e; decide⟩, trivial⟩).1 Kind.Watch

/-! ## The accumulator never exceeds the ceiling -/

theorem bytesAt_length (scratch : List Byte) (n : Nat) : (bytesAt scratch n).length = n := by
  unfold bytesAt
  rw [List.length_append, List.length_take, List.length_replicate]
  omega

theorem bytesAt_eq_take (scratch : List Byte) (n : Nat) (h : n ≤ scratch.length) :
    bytesAt scratch n = scratch.take n := by
  unfold bytesAt
  rw [Nat.sub_eq_zero_of_le h]
  simp

theorem toDWORD_le (i : Int) (h : 0 ≤ i) : ((toDWORD i : Nat) : Int) ≤ i := by
  unfold toDWORD
  have h1 : (0 : Int) ≤ i % 2 ^ 32 := Int.emod_nonneg _ (by norm_num)
  rw [Int.toNat_of_nonneg h1]
  omega

theorem toInt64_le (n : Nat) : toInt64 n ≤ (n : Int) := by
  unfold toInt64
  exact_mod_cast Nat.mod_le n _

theorem toInt64_nonneg (n : Nat) : 0 ≤ toInt64 n := by
  unfold toInt64
  exact_mod_cast Nat.zero_le _

/-- The bound survives any change that keeps the ceiling and the handle, does not grow the
accumulator and adds no outstanding read. -/
theorem Bounded.mono {N : Int} {w v : World} (h : Bounded N w)
    (hN : v.d.readBufferMaxSize = w.d.readBufferMaxSize)
    (hb : v.d.buffer.length ≤ w.d.buffer.length)
    (hh : v.d.handle = w.d.handle)
    (hp : ∀ r ∈ v.os.pending, r.kind = Kind.Read → r ∈ w.os.pending) : Bounded N v := by
  refine ⟨h.pos, by rw [hN]; exact h.ceiling, ?_, ?_⟩
  · have := h.size_le
    omega
  · intro hv r hr hk
    rw [hh] at hv
    have := h.room hv r (hp r hr hk) hk
    omega

/-- Arming a read that asks for no more than the room left keeps the bound. -/
theorem Bounded.armRead {N : Int} {w v : World} (h : Bounded N w)
    (hN : v.d.readBufferMaxSize = w.d.readBufferMaxSize)
    (hb : v.d.buffer = w.d.buffer)
    (hh : v.d.handle = w.d.handle) (t sz : Nat)
    (hp : v.os.pending = w.os.pending ++ [⟨Kind.Read, t, sz⟩])
    (hsz : (w.d.buffer.length : Int) + (sz : Int) ≤ N) : Bounded N v := by
  refine ⟨h.pos, by rw [hN]; exact h.ceiling, ?_, ?_⟩
  · rw [hb]; exact h.size_le
  · intro hv r hr hk
    rw [hh] at hv
    rw [hb]
    rw [hp] at hr
    rcases List.mem_append.mp hr with hr | hr
    · exact h.room hv r hr hk
    · rw [List.mem_singleton] at hr
      subst hr
      exact hsz

theorem Bounded.hold_setError {N : Int} {w : World} (h : Bounded N w) (e : QSerialPortErrorInfo) :
    Bounded N (setError e w) :=
  h.mono rfl (le_refl _) rfl (fun _ hr _ => hr)

theorem startAsyncCommunication_bounded {N : Int} (reply : ArmReply) (w : World)
    (h : Bounded N w) : Bounded N (startAsyncCommunication reply w).2 := by
  unfold startAsyncCommunication
  split_ifs
  · exact h
  · cases reply with
    | accepted =>
        refine h.mono rfl (le_refl _) rfl ?_
        intro r hr hk
        simp only [osArm, obtainOverlapped_pending] at hr
        rcases List.mem_append.mp hr with hr | hr
        · exact hr
        · rw [List.mem_singleton] at hr
          rw [hr] at hk
          cases hk
    | rejected e =>
        dsimp only
        split_ifs
        all_goals first
          | apply Bounded.hold_setError
          | skip
        all_goals
          refine h.mono rfl (le_refl _) rfl ?_
          intro r hr _
          simpa only [osArm, obtainOverlapped_pending] using hr

theorem startAsyncWrite_bounded {N : Int} (reply : ArmReply) (w : World)
    (h : Bounded N w) : Bounded N (_q_startAsyncWrite reply w).2 := by
  unfold _q_startAsyncWrite
  split_ifs
  · exact h
  · cases reply with
    | accepted =>
        refine h.mono rfl (le_refl _) rfl ?_
        intro r hr hk
        simp only [osArm, obtainOverlapped_pending] at hr
        rcases List.mem_append.mp hr with hr | hr
        · exact hr
        · rw [List.mem_singleton] at hr
          rw [hr] at hk
          cases hk
    | rejected e =>
        dsimp only
        split_ifs
        all_goals first
          | apply Bounded.hold_setError
          | skip
        all_goals
          refine h.mono rfl (le_refl _) rfl ?_
          intro r hr _
          simpa only [osArm, obtainOverlapped_pending] using hr

theorem startAsyncRead_bounded {N : Int} (QSERIALPORT_BUFFERSIZE : Nat) (reply : ArmReply)
    (w : World) (h : Bounded N w) :
    Bounded N (startAsyncRead QSERIALPORT_BUFFERSIZE reply w).2 := by
  have hpos := h.pos
  have hceil := h.ceiling
  have hsize := h.size_le
  have hB := toDWORD_le (QSERIALPORT_BUFFERSIZE : Int) (by exact_mod_cast Nat.zero_le _)
  have hR : 0 ≤ w.d.readBufferMaxSize - (w.d.buffer.length : Int) →
      ((toDWORD (w.d.readBufferMaxSize - (w.d.buffer.length : Int)) : Nat) : Int)
        ≤ w.d.readBufferMaxSize - (w.d.buffer.length : Int) := toDWORD_le _
  unfold startAsyncRead
  by_cases hs : w.d.readStarted = true
  · simp only [hs, ↓reduceIte]
    exact h
  · simp only [hs, Bool.false_eq_true, ↓reduceIte]
    cases reply with
    | accepted =>
        dsimp only
        split_ifs with c1 c2 c3
        all_goals first
          | exact h
          | (refine h.armRead rfl rfl rfl
              (obtainOverlapped w.d.readCompletionOverlapped w.os).1
              (toDWORD (w.d.readBufferMaxSize - (w.d.buffer.length : Int))) ?_ ?_
             · simp only [osArm, obtainOverlapped_pending]
             · simp only [Bool.and_eq_true, decide_eq_true_eq, not_and, not_le, gt_iff_lt,
                 ne_eq] at *
               omega)
          | (refine h.armRead rfl rfl rfl
              (obtainOverlapped w.d.readCompletionOverlapped w.os).1
              (toDWORD (QSERIALPORT_BUFFERSIZE : Int)) ?_ ?_
             · simp only [osArm, obtainOverlapped_pending]
             · simp only [Bool.and_eq_true, decide_eq_true_eq, not_and, not_le, gt_iff_lt,
                 ne_eq, not_lt] at *
               omega)
    | rejected e =>
        dsimp only
        split_ifs
        all_goals first
          | exact h
          | apply Bounded.hold_setError
          | skip
        all_goals first
          | exact h
          | (refine h.mono rfl (le_refl _) rfl ?_
             intro r hr _
             simpa only [osArm, obtainOverlapped_pending] using hr)

theorem Bounded.hold_emitReadyRead {N : Int} {w : World} (h : Bounded N w) :
    Bounded N (emitReadyRead w) :=
  h.mono rfl (le_refl _) rfl (fun _ hr _ => hr)

theorem Bounded.hold_queuedBytesCount {N : Int} {w : World} (h : Bounded N w) (direction : Nat)
    (comstat : Option COMSTAT) : Bounded N (queuedBytesCount direction comstat w).2 :=
  h.mono rfl (le_refl _) rfl (fun _ hr _ => hr)

theorem completeAsyncCommunication_bounded {N : Int} (QSERIALPORT_BUFFERSIZE : Nat)
    (bytesTransferred : Int) (reply : ArmReply) (w : World) (h : Bounded N w) :
    Bounded N
      (completeAsyncCommunication QSERIALPORT_BUFFERSIZE bytesTransferred reply w).2 := by
  have h1 : Bounded N { w with d := { w.d with communicationStarted := false } } :=
    h.mono rfl (le_refl _) rfl (fun _ hr _ => hr)
  unfold completeAsyncCommunication
  dsimp only
  split_ifs
  · exact h1
  · exact startAsyncRead_bounded _ _ _ h1

theorem completeAsyncWrite_bounded {N : Int} (bytesTransferred : Int) (reply : ArmReply)
    (w : World) (h : Bounded N w) :
    Bounded N (completeAsyncWrite bytesTransferred reply w).2 := by
  unfold completeAsyncWrite
  dsimp only
  split_ifs
  · exact h.mono rfl (le_refl _) rfl (fun _ hr _ => hr)
  · exact startAsyncWrite_bounded _ _ (h.mono rfl (le_refl _) rfl (fun _ hr _ => hr))
  · exact startAsyncWrite_bounded _ _ (h.mono rfl (le_refl _) rfl (fun _ hr _ => hr))

theorem completeAsyncRead_bounded {N : Int} (QSERIALPORT_BUFFERSIZE : Nat)
    (bytesTransferred : Int) (comstat : Option COMSTAT) (reply : ArmReply) (w : World)
    (h : Bounded N w)
    (h0 : w.d.handle ≠ none → armedCount Kind.Read w = 0)
    (hfit : (w.d.buffer.length : Int) + bytesTransferred ≤ N) :
    Bounded N
      (completeAsyncRead QSERIALPORT_BUFFERSIZE bytesTransferred comstat reply w).2 := by
  have h1 : ∀ (n : Int) (b : List Byte), (b.length : Int) ≤ N →
      Bounded N { w with d := { w.d with readBytesTransferred := n, buffer := b,
                                         readStarted := false } } := by
    intro n b hb
    refine ⟨h.pos, h.ceiling, hb, ?_⟩
    intro hv r hr hk
    exfalso
    have hz := h0 hv
    unfold armedCount at hz
    rw [List.countP_eq_zero] at hz
    exact hz r hr (by simpa using hk)
  have hsize := h.size_le
  have hA : bytesTransferred > 0 →
      ((w.d.buffer ++ bytesAt w.d.readChunkBuffer bytesTransferred.toNat).length : Int)
        ≤ N := by
    intro hbt
    rw [List.length_append, bytesAt_length]
    have := Int.toNat_of_nonneg (le_of_lt hbt)
    push_cast
    omega
  unfold completeAsyncRead
  dsimp only
  split_ifs with c1 c2 c3 c4
  all_goals first
    | exact h1 _ _ hsize
    | apply Bounded.hold_emitReadyRead
    | skip
  all_goals first
    | exact h1 _ _ hsize
    | exact startAsyncRead_bounded _ _ _ (h1 _ _ (hA c2))
    | exact startAsyncRead_bounded _ _ _ (h1 _ _ hsize)
    | exact startAsyncRead_bounded _ _ _ ((h1 _ _ (hA c2)).hold_queuedBytesCount _ _)
    | exact startAsyncRead_bounded _ _ _ ((h1 _ _ hsize).hold_queuedBytesCount _ _)
    | exact startAsyncCommunication_bounded _ _ ((h1 _ _ (hA c2)).hold_queuedBytesCount _ _)
    | exact startAsyncCommunication_bounded _ _ ((h1 _ _ hsize).hold_queuedBytesCount _ _)

theorem handleNotification_bounded {N : Int} (QSERIALPORT_BUFFERSIZE : Nat)
    (bytesTransferred errorCode overlapped : Nat) (comstat : Option COMSTAT)
    (reply : ArmReply) (w : World) (h : Bounded N w)
    (h0 : w.d.handle ≠ none → overlappedOf Kind.Read w.d = some overlapped →
      armedCount Kind.Read w = 0 ∧
      (w.d.buffer.length : Int) + toInt64 bytesTransferred ≤ N) :
    Bounded N (handleNotification QSERIALPORT_BUFFERSIZE bytesTransferred errorCode overlapped
      comstat reply w) := by
  unfold handleNotification
  dsimp only
  split_ifs with hh he h1 h2 h3
  · exact h
  · exact h.hold_setError _
  · exact completeAsyncCommunication_bounded _ _ _ _ h
  · exact completeAsyncRead_bounded _ _ _ _ _ h (fun hv => (h0 hv h2.symm).1)
      (h0 hh h2.symm).2
  · exact completeAsyncWrite_bounded _ _ _ h
  · exact h

theorem ioCompletionRoutine_bounded {N : Int} (QSERIALPORT_BUFFERSIZE : Nat)
    (errorCode bytesTransfered overlapped : Nat) (comstat : Option COMSTAT)
    (reply : ArmReply) (w : World) (h : Bounded N w)
    (h0 : w.d.handle ≠ none → overlappedOf Kind.Read w.d = some overlapped →
      armedCount Kind.Read w = 0 ∧
      (w.d.buffer.length : Int) + toInt64 bytesTransfered ≤ N) :
    Bounded N (ioCompletionRoutine QSERIALPORT_BUFFERSIZE errorCode bytesTransfered overlapped
      comstat reply w) := by
  unfold ioCompletionRoutine
  split_ifs with hdet
  · exact h.mono rfl (le_refl _) rfl (fun _ hr _ => hr)
  · exact handleNotification_bounded _ _ _ _ _ _ _ h h0

theorem deliver_bounded {N : Int} (QSERIALPORT_BUFFERSIZE : Nat) (c : Completion) (w : World)
    (hc : Coherent w) (h : Bounded N w) (hr : c.request ∈ w.os.pending)
    (hw : c.request.kind = Kind.Read → c.bytesTransfered ≤ c.request.size) :
    Bounded N (deliver QSERIALPORT_BUFFERSIZE c w) := by
  have hd : ∀ d1 : QSerialPortPrivate,
      d1 = (if c.request.kind = Kind.Read then
          { w.d with readChunkBuffer := c.data ++ w.d.readChunkBuffer.drop c.data.length }
        else w.d) →
      d1.handle = w.d.handle ∧ d1.buffer = w.d.buffer ∧
        d1.readBufferMaxSize = w.d.readBufferMaxSize ∧
        (∀ k, overlappedOf k d1 = overlappedOf k w.d) := by
    intro d1 e
    subst e
    split_ifs
    · exact ⟨rfl, rfl, rfl, fun k => by cases k <;> rfl⟩
    · exact ⟨rfl, rfl, rfl, fun _ => rfl⟩
  obtain ⟨hd1, hd2, hd3, hd4⟩ := hd _ rfl
  have h1 : Bounded N
      { w with
        os := { w.os with pending := w.os.pending.erase c.request }
        d := if c.request.kind = Kind.Read then
               { w.d with readChunkBuffer := c.data ++ w.d.readChunkBuffer.drop c.data.length }
             else w.d } :=
    h.mono hd3 (by rw [hd2]) hd1 (fun r hr1 _ => List.mem_of_mem_erase hr1)
  unfold deliver
  refine ioCompletionRoutine_bounded _ _ _ _ _ _ _ h1 ?_
  intro hv1 hk
  have hv2 : w.d.handle ≠ none := by
    intro e
    apply hv1
    show (if c.request.kind = Kind.Read then _ else w.d).handle = none
    rw [hd1, e]
  have ho := (hc.owned hv2 c.request hr).2
  have hk1 : overlappedOf Kind.Read w.d = some c.request.overlapped := by
    rw [← hd4 Kind.Read]
    exact hk
  have hkind : Kind.Read = c.request.kind := hc.distinct _ _ _ hk1 ho
  refine ⟨?_, ?_⟩
  · rw [hkind]
    exact hc.armedCount_erase c.request hr rfl
  · have h2 := h.room hv2 c.request hr hkind.symm
    have h3 := hw hkind.symm
    have h4 := toInt64_le c.bytesTransfered
    show ((if c.request.kind = Kind.Read then _ else w.d).buffer.length : Int) + _ ≤ N
    rw [hd2]
    omega

theorem close_bounded {N : Int} (a b : CallReply) (w : World) (h : Bounded N w) :
    Bounded N (close a b w) :=
  ⟨h.pos, h.ceiling, h.size_le, fun hv => absurd rfl hv⟩

theorem writeData_bounded {N : Int} (data : List Byte) (w : World) (h : Bounded N w) :
    Bounded N (writeData data w).2 := by
  unfold writeData
  dsimp only
  split_ifs
  · exact h.mono rfl (le_refl _) rfl (fun _ hr _ => hr)
  · exact h.mono rfl (le_refl _) rfl (fun _ hr _ => hr)

theorem callerRead_bounded {N : Int} (n : Nat) (w : World) (h : Bounded N w) :
    Bounded N (callerRead n w) :=
  h.mono rfl (by simp [callerRead]) rfl (fun _ hr _ => hr)

theorem step_bounded {N : Int} (QSERIALPORT_BUFFERSIZE : Nat) (op : Op) (w : World)
    (hc : Coherent w) (h : Bounded N w) (he : enabled op w) (hw : withinRequest op) :
    Bounded N (step QSERIALPORT_BUFFERSIZE op w) := by
  cases op with
  | startAsyncCommunication reply => exact startAsyncCommunication_bounded _ _ h
  | startAsyncRead reply => exact startAsyncRead_bounded _ _ _ h
  | startAsyncWrite reply => exact startAsyncWrite_bounded _ _ h
  | completion c => exact deliver_bounded _ _ _ hc h (he.2 c rfl) (hw c rfl)
  | close a b => exact close_bounded _ _ _ h
  | writeData data => exact writeData_bounded _ _ h
  | callerRead n => exact callerRead_bounded _ _ h

theorem run_bounded {N : Int} (QSERIALPORT_BUFFERSIZE : Nat) (ops : List Op) :
    ∀ w : World, Coherent w → Bounded N w → Admissible QSERIALPORT_BUFFERSIZE ops w →
      (∀ op ∈ ops, withinRequest op) →
      Bounded N (run QSERIALPORT_BUFFERSIZE ops w) := by
  induction ops with
  | nil => intro w _ h _ _; exact h
  | cons op ops ih =>
      intro w hc h ha hw
      exact ih _ (step_coherent _ _ _ hc ha.1)
        (step_bounded _ _ _ hc h ha.1 (hw op (List.mem_cons_self _ _))) ha.2
        (fun o ho => hw o (List.mem_cons_of_mem _ ho))

/-- C3: with a fixed ceiling `readBufferMaxSize = N > 0` and an initially empty accumulator on
a port with nothing armed, along every sequence of start operations, delivered completions of
outstanding requests (each read transferring at most the number of bytes its request asked
for), `close`, writes and reads by the caller that only remove bytes, in which the system
accepts a request only on a valid handle, the ceiling keeps its value and the accumulator
never holds more than `N` bytes. -/
theorem accumulator_within_ceiling (QSERIALPORT_BUFFERSIZE : Nat) (ops : List Op) (w : World)
    (hidle : Idle w) (hN : 0 < w.d.readBufferMaxSize) (hempty : w.d.buffer = [])
    (ha : Admissible QSERIALPORT_BUFFERSIZE ops w) (hw : ∀ op ∈ ops, withinRequest op) :
    (run QSERIALPORT_BUFFERSIZE ops w).d.readBufferMaxSize = w.d.readBufferMaxSize ∧
    ((run QSERIALPORT_BUFFERSIZE ops w).d.buffer.length : Int) ≤ w.d.readBufferMaxSize := by
  have hb : Bounded w.d.readBufferMaxSize w := by
    refine ⟨hN, rfl, ?_, ?_⟩
    · rw [hempty]
      simp only [List.length_nil, Nat.cast_zero]
      omega
    · intro _ r hr
      rw [hidle.1] at hr
      exact absurd hr (List.not_mem_nil r)
  have := run_bounded QSERIALPORT_BUFFERSIZE ops w hidle.coherent hb ha hw
  exact ⟨this.ceiling, this.size_le⟩

/-- Witness of `accumulator_within_ceiling`: the run `runCeiling2` on `worldCeiling2`. -/
theorem accumulator_within_ceiling_witness :
    ((run 32768 runCeiling2 worldCeiling2).d.buffer.length : Int) ≤ 2 :=
  (accumulator_within_ceiling 32768 runCeiling2 worldCeiling2 ⟨rfl, rfl, rfl, rfl⟩
    (by decide) rfl
    (by
      unfold runCeiling2
      refine ⟨⟨fun _ => ?_, fun c e => ?_⟩, ⟨fun _ => ?_, fun c e => ?_⟩,
        ⟨fun e => ?_, fun c e => ?_⟩, trivial⟩
      · decide
      · cases e
      · decide
      · cases e
        decide
      · cases e
      · cases e)
    (by
      intro op hop c e
      subst e
      simp only [runCeiling2, List.mem_cons, List.mem_singleton, Op.completion.injEq,
        List.not_mem_nil, or_false] at hop
      rcases hop with hop | hop | hop
      · cases hop
      · subst hop
        intro _
        decide
      · cases hop)).2

/-! ## The write pipeline -/

theorem writeData_fields (c : List Byte) (w : World) :
    (writeData c w).2.d.writeBuffer = w.d.writeBuffer.append c ∧
    (writeData c w).2.d.writeStarted = w.d.writeStarted ∧
    (writeData c w).2.os = w.os ∧ (writeData c w).2.emitted = w.emitted := by
  unfold writeData
  dsimp only
  split_ifs <;> exact ⟨rfl, rfl, rfl, rfl⟩

theorem submit_fields (chunks : List (List Byte)) :
    ∀ w : World,
      (submit chunks w).d.writeBuffer = w.d.writeBuffer ++ chunks.filter (fun c => c ≠ []) ∧
      (submit chunks w).d.writeStarted = w.d.writeStarted ∧
      (submit chunks w).os = w.os ∧ (submit chunks w).emitted = w.emitted := by
  induction chunks with
  | nil => intro w; simp [submit]
  | cons c cs ih =>
      intro w
      obtain ⟨h1, h2, h3, h4⟩ := writeData_fields c w
      obtain ⟨i1, i2, i3, i4⟩ := ih (writeData c w).2
      have e : submit (c :: cs) w = submit cs (writeData c w).2 := rfl
      rw [e, i1, i2, i3, i4, h1, h2, h3, h4]
      refine ⟨?_, rfl, rfl, rfl⟩
      unfold ChunkedByteBuffer.append
      by_cases hc : c = []
      · simp [hc]
      · simp [hc]

theorem drain_started (fuel : Nat) (w : World) (h : w.d.writeStarted = true) :
    drain (fuel + 1) w =
      drain fuel
        (completeAsyncWrite (w.d.writeChunkBuffer.length : Int) ArmReply.accepted w).2 := by
  simp [drain, h]

theorem pump_drains (q : List (List Byte)) :
    ∀ (fuel : Nat) (w : World), q.length ≤ fuel → w.d.writeBuffer = q →
      (∀ c ∈ q, c ≠ []) → w.d.writeStarted = false →
      (pump fuel w).d.writeBuffer = [] ∧ (pump fuel w).d.writeStarted = false ∧
      writtenChunks (pump fuel w) = writtenChunks w ++ q ∧
      reportedCounts (pump fuel w) = reportedCounts w ++ q.map (fun c => (c.length : Int)) := by
  induction q with
  | nil =>
      intro fuel w _ hq _ hs
      have e : _q_startAsyncWrite ArmReply.accepted w = (true, w) := by
        simp [_q_startAsyncWrite, hq, ChunkedByteBuffer.isEmpty]
      have e2 : pump fuel w = w := by
        unfold pump
        rw [e]
        cases fuel with
        | zero => rfl
        | succ n => simp [drain, hs]
      rw [e2]
      simp [hq, hs]
  | cons c cs ih =>
      intro fuel w hf hq hne hs
      obtain ⟨n, rfl⟩ : ∃ n, fuel = n + 1 := ⟨fuel - 1, by simp at hf; omega⟩
      have hc : c ≠ [] := hne c (List.mem_cons_self _ _)
      have hemp : w.d.writeBuffer.isEmpty = false := by
        rw [hq]
        simp [ChunkedByteBuffer.isEmpty, hc]
      -- the world once the head chunk has completed, before the next pump
      let v : World :=
        { w with
          d := { w.d with writeChunkBuffer := [], writeBuffer := cs,
                          writeCompletionOverlapped :=
                            some (obtainOverlapped w.d.writeCompletionOverlapped w.os).1,
                          writeStarted := false, writeBytesTransferred := (c.length : Int) }
          os := osArm (OsCall.writeFileEx
                    (obtainOverlapped w.d.writeCompletionOverlapped w.os).1 c)
                  ⟨Kind.Write, (obtainOverlapped w.d.writeCompletionOverlapped w.os).1,
                    toDWORD (c.length : Int)⟩ ArmReply.accepted
                  (obtainOverlapped w.d.writeCompletionOverlapped w.os).2
          emitted := w.emitted ++ [Signal.bytesWritten (c.length : Int)] }
      have hstep : pump (n + 1) w = pump n v := by
        have hlen : ¬ ((c.length : Int) = -1) := by omega
        have hemp2 : ChunkedByteBuffer.isEmpty (c :: cs) = false := by
          simp [ChunkedByteBuffer.isEmpty, hc]
        have e1 : _q_startAsyncWrite ArmReply.accepted w =
            (true,
              { w with
                d := { w.d with writeChunkBuffer := c, writeBuffer := cs,
                                writeCompletionOverlapped :=
                                  some (obtainOverlapped w.d.writeCompletionOverlapped w.os).1,
                                writeStarted := true }
                os := osArm (OsCall.writeFileEx
                          (obtainOverlapped w.d.writeCompletionOverlapped w.os).1 c)
                        ⟨Kind.Write, (obtainOverlapped w.d.writeCompletionOverlapped w.os).1,
                          toDWORD (c.length : Int)⟩ ArmReply.accepted
                        (obtainOverlapped w.d.writeCompletionOverlapped w.os).2 }) := by
          unfold _q_startAsyncWrite
          simp only [hq, hemp2, hs, Bool.or_self, Bool.false_eq_true, ↓reduceIte,
            ChunkedByteBuffer.read]
        unfold pump
        rw [e1, drain_started _ _ rfl]
        have e2 : completeAsyncWrite (c.length : Int) ArmReply.accepted
            { w with
              d := { w.d with writeChunkBuffer := c, writeBuffer := cs,
                              writeCompletionOverlapped :=
                                some (obtainOverlapped w.d.writeCompletionOverlapped w.os).1,
                              writeStarted := true }
              os := osArm (OsCall.writeFileEx
                        (obtainOverlapped w.d.writeCompletionOverlapped w.os).1 c)
                      ⟨Kind.Write, (obtainOverlapped w.d.writeCompletionOverlapped w.os).1,
                        toDWORD (c.length : Int)⟩ ArmReply.accepted
                      (obtainOverlapped w.d.writeCompletionOverlapped w.os).2 }
            = _q_startAsyncWrite ArmReply.accepted v := by
          unfold completeAsyncWrite
          simp only [↓reduceIte, hlen]
        exact congrArg (fun x => drain n x.2) e2
      have hcalls : writtenChunks v = writtenChunks w ++ [c] := by
        have : v.os.calls = w.os.calls ++ [OsCall.writeFileEx
            (obtainOverlapped w.d.writeCompletionOverlapped w.os).1 c] := by
          cases hp : w.d.writeCompletionOverlapped <;> simp [v, osArm, obtainOverlapped, hp]
        unfold writtenChunks
        rw [this, List.filterMap_append]
        rfl
      have hrep : reportedCounts v = reportedCounts w ++ [(c.length : Int)] := by
        simp [reportedCounts, v, List.filterMap_append]
      obtain ⟨i1, i2, i3, i4⟩ := ih n v (by simp at hf; omega) rfl
        (fun x hx => hne x (List.mem_cons_of_mem _ hx)) rfl
      rw [hstep, i3, i4, hcalls, hrep]
      exact ⟨i1, i2, by simp, by simp⟩

theorem flatten_filter_nonempty (l : List (List Byte)) :
    (l.filter (fun c => c ≠ [])).flatten = l.flatten := by
  induction l with
  | nil => rfl
  | cons c cs ih =>
      by_cases hc : c = []
      · have hp : decide (c ≠ []) = false := by simp [hc]
        rw [List.filter_cons, hp]
        simp only [Bool.false_eq_true, ↓reduceIte, List.flatten_cons, hc, List.nil_append]
        exact ih
      · have hp : decide (c ≠ []) = true := by simp [hc]
        rw [List.filter_cons, hp]
        simp only [↓reduceIte, List.flatten_cons]
        rw [ih]

theorem sum_length_filter_nonempty (l : List (List Byte)) :
    ((l.filter (fun c => c ≠ [])).map (fun c => (c.length : Int))).sum
      = ((l.map List.length).sum : Nat) := by
  induction l with
  | nil => rfl
  | cons c cs ih =>
      by_cases hc : c = []
      · have hp : decide (c ≠ []) = false := by simp [hc]
        rw [List.filter_cons, hp]
        simp only [Bool.false_eq_true, ↓reduceIte, List.map_cons, List.sum_cons, hc,
          List.length_nil, zero_add]
        exact ih
      · have hp : decide (c ≠ []) = true := by simp [hc]
        rw [List.filter_cons, hp]
        simp only [↓reduceIte, List.map_cons, List.sum_cons, Nat.cast_add]
        rw [ih]

/-- C5: on a port with an empty write queue and no write in flight, after any sequence of
`writeData` calls, starting the pump with `_q_startAsyncWrite` and completing each armed write
in full (`completeAsyncWrite` with the size of the chunk in flight) empties the queue within as
many completions as chunks were submitted; the payloads handed to the system are the submitted
non-empty chunks in submission order, so the bytes sent are the submitted bytes in order; each
completion emits one `bytesWritten` carrying the size of its chunk; and the emitted counts sum
to the total number of bytes submitted. -/
theorem write_pipeline (chunks : List (List Byte)) (fuel : Nat) (w : World)
    (hq : w.d.writeBuffer = []) (hs : w.d.writeStarted = false)
    (hf : chunks.length ≤ fuel) :
    (pump fuel (submit chunks w)).d.writeBuffer = [] ∧
    (pump fuel (submit chunks w)).d.writeStarted = false ∧
    writtenChunks (pump fuel (submit chunks w))
      = writtenChunks w ++ chunks.filter (fun c => c ≠ []) ∧
    (writtenChunks (pump fuel (submit chunks w))).flatten
      = (writtenChunks w).flatten ++ chunks.flatten ∧
    reportedCounts (pump fuel (submit chunks w))
      = reportedCounts w ++ (chunks.filter (fun c => c ≠ [])).map (fun c => (c.length : Int)) ∧
    ((chunks.filter (fun c => c ≠ [])).map (fun c => (c.length : Int))).sum
      = ((chunks.map List.length).sum : Nat) := by
  obtain ⟨s1, s2, s3, s4⟩ := submit_fields chunks w
  rw [hq, List.nil_append] at s1
  rw [hs] at s2
  have hlen : (chunks.filter (fun c => c ≠ [])).length ≤ fuel :=
    le_trans (List.length_filter_le _ _) hf
  obtain ⟨p1, p2, p3, p4⟩ := pump_drains (chunks.filter (fun c => c ≠ [])) fuel
    (submit chunks w) hlen s1 (fun c hc => by simpa using (List.mem_filter.mp hc).2) s2
  have hw : writtenChunks (submit chunks w) = writtenChunks w := by
    unfold writtenChunks; rw [s3]
  have hr : reportedCounts (submit chunks w) = reportedCounts w := by
    unfold reportedCounts; rw [s4]
  rw [hw] at p3
  rw [hr] at p4
  refine ⟨p1, p2, p3, ?_, p4, sum_length_filter_nonempty chunks⟩
  rw [p3, List.flatten_append, flatten_filter_nonempty]

/-- Witness of `write_pipeline`: two chunks submitted on `world0`. -/
theorem write_pipeline_witness :
    writtenChunks (pump 2 (submit [[1, 2], [3]] world0)) = [[1, 2], [3]] ∧
    reportedCounts (pump 2 (submit [[1, 2], [3]] world0)) = [2, 1] :=
  ⟨(write_pipeline [[1, 2], [3]] 2 world0 rfl rfl (by decide)).2.2.1,
   (write_pipeline [[1, 2], [3]] 2 world0 rfl rfl (by decide)).2.2.2.2.1⟩

/-! ## Baud rate -/

/-- C11: for every `qint32` baud rate `r`, `setBaudRate(r, AllDirections)` on a device whose
configuration can be read and written succeeds; the one call it records is `SetCommState` with
the snapshot read from the device in which only `BaudRate` is replaced, and the device then
holds that snapshot. The rate read back from the device as a `qint32` is `r`; the stored
`DWORD` itself is `r` when `r` is not negative, in particular for every rate of
`standardBaudRates`. -/
theorem setBaudRate_roundtrip (r : Int) (w : World)
    (hlo : -2 ^ 31 ≤ r) (hhi : r < 2 ^ 31) :
    setBaudRate r AllDirections CallReply.ok CallReply.ok w =
      (true, { w with os := { w.os with
        calls := w.os.calls ++ [OsCall.setCommState { w.os.dcb with BaudRate := toDWORD r }]
        dcb := { w.os.dcb with BaudRate := toDWORD r } } }) ∧
    toInt32 (setBaudRate r AllDirections CallReply.ok CallReply.ok w).2.os.dcb.BaudRate = r ∧
    (0 ≤ r →
      ((setBaudRate r AllDirections CallReply.ok CallReply.ok w).2.os.dcb.BaudRate : Int) = r) ∧
    (∀ s ∈ standardBaudRates,
      ((setBaudRate s AllDirections CallReply.ok CallReply.ok w).2.os.dcb.BaudRate : Int)
        = s) := by
  have e : ∀ x : Int, setBaudRate x AllDirections CallReply.ok CallReply.ok w =
      (true, { w with os := { w.os with
        calls := w.os.calls ++ [OsCall.setCommState { w.os.dcb with BaudRate := toDWORD x }]
        dcb := { w.os.dcb with BaudRate := toDWORD x } } }) := by
    intro x
    simp [setBaudRate, getDcb, setDcb, osCall, qt_set_baudrate]
  have hpos : ∀ x : Int, 0 ≤ x → x < 2 ^ 32 → ((toDWORD x : Nat) : Int) = x := by
    intro x h0 h1
    unfold toDWORD
    rw [Int.toNat_of_nonneg (Int.emod_nonneg _ (by norm_num))]
    exact Int.emod_eq_of_lt h0 h1
  refine ⟨e r, ?_, ?_, ?_⟩
  · rw [e r]
    show toInt32 (toDWORD r) = r
    unfold toInt32 toDWORD
    have h1 : (0 : Int) ≤ r % 2 ^ 32 := Int.emod_nonneg _ (by norm_num)
    have h2 : r % 2 ^ 32 < 2 ^ 32 := Int.emod_lt_of_pos _ (by norm_num)
    have h3 : ((r % 2 ^ 32).toNat : Int) = r % 2 ^ 32 := Int.toNat_of_nonneg h1
    have h4 : (r % 2 ^ 32).toNat % 2 ^ 32 = (r % 2 ^ 32).toNat := by
      apply Nat.mod_eq_of_lt
      omega
    rw [h4]
    split_ifs with hc
    · omega
    · omega
  · intro h0
    rw [e r]
    exact hpos r h0 (by omega)
  · intro s hs
    rw [e s]
    simp only [standardBaudRates, List.mem_cons, List.mem_singleton, List.not_mem_nil,
      or_false] at hs
    apply hpos <;> omega

/-- Witness of `setBaudRate_roundtrip`: the rate 9600 on `world0`. -/
theorem setBaudRate_roundtrip_witness :
    ((setBaudRate 9600 AllDirections CallReply.ok CallReply.ok world0).2.os.dcb.BaudRate : Int)
      = 9600 :=
  (setBaudRate_roundtrip 9600 world0 (by norm_num) (by norm_num)).2.2.1 (by norm_num)

/-! ## Completion of a read -/

theorem startAsyncRead_frame (QSERIALPORT_BUFFERSIZE : Nat) (reply : ArmReply) (w : World) :
    (startAsyncRead QSERIALPORT_BUFFERSIZE reply w).2.d.buffer = w.d.buffer ∧
    (startAsyncRead QSERIALPORT_BUFFERSIZE reply w).2.d.readBytesTransferred
      = w.d.readBytesTransferred ∧
    (startAsyncRead QSERIALPORT_BUFFERSIZE reply w).2.d.communicationStarted
      = w.d.communicationStarted ∧
    (startAsyncRead QSERIALPORT_BUFFERSIZE reply w).2.emitted.count Signal.readyRead
      = w.emitted.count Signal.readyRead := by
  unfold startAsyncRead
  cases reply with
  | accepted =>
      dsimp only
      split_ifs <;> exact ⟨rfl, rfl, rfl, rfl⟩
  | rejected e =>
      dsimp only
      split_ifs <;> simp [setError, List.count_append]

theorem startAsyncCommunication_frame (reply : ArmReply) (w : World) :
    (startAsyncCommunication reply w).2.d.buffer = w.d.buffer ∧
    (startAsyncCommunication reply w).2.d.readBytesTransferred = w.d.readBytesTransferred ∧
    (startAsyncCommunication reply w).2.d.readStarted = w.d.readStarted ∧
    (startAsyncCommunication reply w).2.emitted.count Signal.readyRead
      = w.emitted.count Signal.readyRead := by
  unfold startAsyncCommunication
  cases reply with
  | accepted =>
      dsimp only
      split_ifs <;> exact ⟨rfl, rfl, rfl, rfl⟩
  | rejected e =>
      dsimp only
      split_ifs <;> simp [setError, List.count_append]

/-- An accepted `startAsyncRead` below the ceiling leaves the read started. -/
theorem startAsyncRead_accepted_started (QSERIALPORT_BUFFERSIZE : Nat) (w : World)
    (hroom : w.d.readBufferMaxSize = 0 ∨ (w.d.buffer.length : Int) < w.d.readBufferMaxSize) :
    (startAsyncRead QSERIALPORT_BUFFERSIZE ArmReply.accepted w).2.d.readStarted = true := by
  by_cases hs : w.d.readStarted = true
  · simp [startAsyncRead, hs]
  · have hg := startAsyncRead_guard_false QSERIALPORT_BUFFERSIZE w hroom
    unfold startAsyncRead
    simp only [hs, hg]
    simp

/-- An accepted `startAsyncCommunication` leaves the watch started. -/
theorem startAsyncCommunication_accepted_started (w : World) :
    (startAsyncCommunication ArmReply.accepted w).2.d.communicationStarted = true := by
  by_cases hs : w.d.communicationStarted = true
  · simp [startAsyncCommunication, hs]
  · simp [startAsyncCommunication, hs]

/-- C12: for a read completion with `n ≥ 0` transferred bytes, `completeAsyncRead` records
`n`, appends exactly `n` bytes, the first `n` bytes of the scratch chunk, to the accumulator
and marks the read not started (the world `v`); then, if `n` is the chunk size it calls
`startAsyncRead` without asking the device, otherwise it asks the device for the bytes queued
and calls `startAsyncRead` if there are some and `startAsyncCommunication` if not; its result
is the result of that call followed by one data-ready signal exactly when `n > 0`. Seen from
outside: the accumulator grows by exactly `n` bytes, which are the leading `n` bytes of the
scratch chunk; one more `readyRead` is emitted if `n > 0` and none otherwise; when the read is
re-armed and accepted below the ceiling the read is started again and the watch flag is
untouched; when it is not re-armed the read stays not started and an accepted watch is
started. -/
theorem completeAsyncRead_behaviour (QSERIALPORT_BUFFERSIZE : Nat) (n : Int)
    (comstat : Option COMSTAT) (reply : ArmReply) (w : World) (hn : 0 ≤ n) :
    let v : World :=
      { w with d := { w.d with
          readBytesTransferred := n
          buffer := w.d.buffer ++ bytesAt w.d.readChunkBuffer n.toNat
          readStarted := false } }
    let q := queuedBytesCount Input comstat v
    let r : Bool × World :=
      if n = (QSERIALPORT_BUFFERSIZE : Int) then startAsyncRead QSERIALPORT_BUFFERSIZE reply v
      else if q.1 > 0 then startAsyncRead QSERIALPORT_BUFFERSIZE reply q.2
      else startAsyncCommunication reply q.2
    let res := completeAsyncRead QSERIALPORT_BUFFERSIZE n comstat reply w
    res = (r.1, if 0 < n then emitReadyRead r.2 else r.2) ∧
    (q.1 > 0 ↔ ∃ c, comstat = some c ∧ 0 < c.cbInQue % 2 ^ 32) ∧
    res.2.d.readBytesTransferred = n ∧
    res.2.d.buffer = w.d.buffer ++ bytesAt w.d.readChunkBuffer n.toNat ∧
    (res.2.d.buffer.length : Int) = (w.d.buffer.length : Int) + n ∧
    (n.toNat ≤ w.d.readChunkBuffer.length →
      res.2.d.buffer = w.d.buffer ++ w.d.readChunkBuffer.take n.toNat) ∧
    res.2.emitted.count Signal.readyRead
      = w.emitted.count Signal.readyRead + (if 0 < n then 1 else 0) ∧
    ((n = (QSERIALPORT_BUFFERSIZE : Int) ∨ q.1 > 0) → reply = ArmReply.accepted →
      (w.d.readBufferMaxSize = 0 ∨
        (w.d.buffer.length : Int) + n < w.d.readBufferMaxSize) →
      res.2.d.readStarted = true ∧
      res.2.d.communicationStarted = w.d.communicationStarted) ∧
    (¬ (n = (QSERIALPORT_BUFFERSIZE : Int) ∨ q.1 > 0) →
      res.2.d.readStarted = false ∧
      (reply = ArmReply.accepted → res.2.d.communicationStarted = true)) := by
  intro v q r res
  have hne : ¬ n = -1 := by omega
  have hnat : ((n.toNat : Nat) : Int) = n := Int.toNat_of_nonneg hn
  have hmain : res = (r.1, if 0 < n then emitReadyRead r.2 else r.2) := by
    by_cases hpos : 0 < n
    · show completeAsyncRead QSERIALPORT_BUFFERSIZE n comstat reply w = _
      unfold completeAsyncRead
      simp only [hne, ↓reduceIte, gt_iff_lt, hpos, r, q, v]
    · have h0 : n = 0 := by omega
      have hv : v = { w with d := { w.d with readBytesTransferred := n,
                                             readStarted := false } } := by
        simp [v, h0, bytesAt]
      show completeAsyncRead QSERIALPORT_BUFFERSIZE n comstat reply w = _
      unfold completeAsyncRead
      simp only [hne, ↓reduceIte, gt_iff_lt, hpos, r, q, hv]
  have hq : q.1 > 0 ↔ ∃ c, comstat = some c ∧ 0 < c.cbInQue % 2 ^ 32 := by
    cases comstat with
    | none => simp [q, queuedBytesCount]
    | some c =>
        simp only [q, queuedBytesCount, Input, ↓reduceIte, toInt64, gt_iff_lt, Nat.cast_pos,
          Option.some.injEq, exists_eq_left']
  -- what the call that follows leaves untouched
  have hr : r.2.d.buffer = v.d.buffer ∧ r.2.d.readBytesTransferred = v.d.readBytesTransferred ∧
      r.2.emitted.count Signal.readyRead = v.emitted.count Signal.readyRead := by
    simp only [r]
    split_ifs
    · obtain ⟨a, b, _, d⟩ := startAsyncRead_frame QSERIALPORT_BUFFERSIZE reply v
      exact ⟨a, b, d⟩
    · obtain ⟨a, b, _, d⟩ := startAsyncRead_frame QSERIALPORT_BUFFERSIZE reply q.2
      exact ⟨a, b, d⟩
    · obtain ⟨a, b, _, d⟩ := startAsyncCommunication_frame reply q.2
      exact ⟨a, b, d⟩
  have hres : res.2.d = r.2.d := by
    rw [hmain]
    dsimp only
    split_ifs <;> rfl
  have hbuf : res.2.d.buffer = w.d.buffer ++ bytesAt w.d.readChunkBuffer n.toNat := by
    rw [hres, hr.1]
  refine ⟨hmain, hq, ?_, hbuf, ?_, ?_, ?_, ?_, ?_⟩
  · rw [hres, hr.2.1]
  · rw [hbuf, List.length_append, bytesAt_length]
    push_cast
    omega
  · intro hlen
    rw [hbuf, bytesAt_eq_take _ _ hlen]
  · rw [hmain]
    dsimp only
    by_cases hpos : 0 < n
    · simp only [hpos, ↓reduceIte, emitReadyRead, List.count_append, hr.2.2]
      rfl
    · simp only [hpos, ↓reduceIte, hr.2.2, add_zero]
  · intro hre hacc hroom
    subst hacc
    have hroomv : v.d.readBufferMaxSize = 0 ∨
        (v.d.buffer.length : Int) < v.d.readBufferMaxSize := by
      rcases hroom with h | h
      · exact Or.inl h
      · right
        show ((w.d.buffer ++ bytesAt w.d.readChunkBuffer n.toNat).length : Int) < _
        rw [List.length_append, bytesAt_length]
        push_cast
        omega
    rw [hres]
    simp only [r]
    split_ifs with h1 h2
    · exact ⟨startAsyncRead_accepted_started _ v hroomv,
        (startAsyncRead_frame QSERIALPORT_BUFFERSIZE ArmReply.accepted v).2.2.1⟩
    · exact ⟨startAsyncRead_accepted_started _ q.2 hroomv,
        (startAsyncRead_frame QSERIALPORT_BUFFERSIZE ArmReply.accepted q.2).2.2.1⟩
    · exact absurd hre (by
        intro h
        rcases h with h | h
        · exact h1 h
        · exact h2 h)
  · intro hno
    have h1 : ¬ n = (QSERIALPORT_BUFFERSIZE : Int) := fun h => hno (Or.inl h)
    have h2 : ¬ q.1 > 0 := fun h => hno (Or.inr h)
    rw [hres]
    simp only [r, h1, h2, ↓reduceIte]
    refine ⟨(startAsyncCommunication_frame reply q.2).2.2.1, ?_⟩
    intro hacc
    subst hacc
    exact startAsyncCommunication_accepted_started q.2

/-- Witness of `completeAsyncRead_behaviour`, for a chunk size of 4 on `worldScratch`. A full
chunk of 4 bytes is appended, signalled, and the read is armed again; a completion with 2
bytes and an empty device queue appends 2 bytes, signals them, and arms the watch. -/
theorem completeAsyncRead_behaviour_witness :
    ((completeAsyncRead 4 4 none ArmReply.accepted worldScratch).2.d.buffer = [1, 2, 3, 4] ∧
     (completeAsyncRead 4 4 none ArmReply.accepted worldScratch).2.emitted.count
        Signal.readyRead = 1 ∧
     (completeAsyncRead 4 4 none ArmReply.accepted worldScratch).2.d.readStarted = true) ∧
    ((completeAsyncRead 4 2 (some ⟨0, 0⟩) ArmReply.accepted worldScratch).2.d.buffer
        = [1, 2] ∧
     (completeAsyncRead 4 2 (some ⟨0, 0⟩) ArmReply.accepted worldScratch).2.emitted.count
        Signal.readyRead = 1 ∧
     (completeAsyncRead 4 2 (some ⟨0, 0⟩) ArmReply.accepted worldScratch).2.d.readStarted
        = false ∧
     (completeAsyncRead 4 2 (some ⟨0, 0⟩) ArmReply.accepted worldScratch).2.d.communicationStarted
        = true) :=
  ⟨⟨((completeAsyncRead_behaviour 4 4 none ArmReply.accepted worldScratch
        (by decide)).2.2.2.2.2.1 (by decide)).trans (by decide),
    ((completeAsyncRead_behaviour 4 4 none ArmReply.accepted worldScratch
        (by decide)).2.2.2.2.2.2.1).trans (by decide),
    ((completeAsyncRead_behaviour 4 4 none ArmReply.accepted worldScratch
        (by decide)).2.2.2.2.2.2.2.1 (Or.inl rfl) rfl (Or.inl rfl)).1⟩,
   ⟨((completeAsyncRead_behaviour 4 2 (some ⟨0, 0⟩) ArmReply.accepted worldScratch
        (by decide)).2.2.2.2.2.1 (by decide)).trans (by decide),
    ((completeAsyncRead_behaviour 4 2 (some ⟨0, 0⟩) ArmReply.accepted worldScratch
        (by decide)).2.2.2.2.2.2.1).trans (by decide),
    ((completeAsyncRead_behaviour 4 2 (some ⟨0, 0⟩) ArmReply.accepted worldScratch
        (by decide)).2.2.2.2.2.2.2.2 (by decide)).1,
    ((completeAsyncRead_behaviour 4 2 (some ⟨0, 0⟩) ArmReply.accepted worldScratch
        (by decide)).2.2.2.2.2.2.2.2 (by decide)).2 rfl⟩⟩

/-! ## A rejected write -/

/-- C13: `_q_startAsyncWrite` is not atomic on failure. With a non-empty write queue and no
write in flight, when the arming call is rejected with a code that classifies to a real error,
the call returns failure with `writeStarted = false`, while the former head chunk has left the
queue and survives only in the in-flight chunk buffer, the queue being shorter by the size of
that chunk. A later pump with a queue that is still non-empty overwrites the in-flight chunk
buffer with the next head and hands only that next head to the system; with an empty queue it
does nothing. The rejected chunk is not sent again. -/
theorem startAsyncWrite_rejected_drops_head (w : World) (e : Nat) (reply : ArmReply)
    (hq : w.d.writeBuffer.isEmpty = false) (hs : w.d.writeStarted = false)
    (he : (getSystemError e (-1)).errorCode ≠ SerialPortError.NoError) :
    (_q_startAsyncWrite (ArmReply.rejected e) w).1 = false ∧
    (_q_startAsyncWrite (ArmReply.rejected e) w).2.d.writeStarted = false ∧
    (_q_startAsyncWrite (ArmReply.rejected e) w).2.d.writeChunkBuffer
      = w.d.writeBuffer.read.1 ∧
    (_q_startAsyncWrite (ArmReply.rejected e) w).2.d.writeBuffer = w.d.writeBuffer.read.2 ∧
    w.d.writeBuffer = w.d.writeBuffer.read.1 :: w.d.writeBuffer.read.2 ∧
    (_q_startAsyncWrite (ArmReply.rejected e) w).2.d.writeBuffer.size
      + w.d.writeBuffer.read.1.length = w.d.writeBuffer.size ∧
    (_q_startAsyncWrite (ArmReply.rejected e) w).2.os.pending = w.os.pending ∧
    ((_q_startAsyncWrite (ArmReply.rejected e) w).2.d.writeBuffer.isEmpty = false →
      (_q_startAsyncWrite reply (_q_startAsyncWrite (ArmReply.rejected e) w).2).2.d.writeChunkBuffer
        = w.d.writeBuffer.read.2.read.1 ∧
      writtenChunks (_q_startAsyncWrite reply (_q_startAsyncWrite (ArmReply.rejected e) w).2).2
        = writtenChunks w ++ [w.d.writeBuffer.read.1, w.d.writeBuffer.read.2.read.1]) ∧
    ((_q_startAsyncWrite (ArmReply.rejected e) w).2.d.writeBuffer.isEmpty = true →
      _q_startAsyncWrite reply (_q_startAsyncWrite (ArmReply.rejected e) w).2
        = (true, (_q_startAsyncWrite (ArmReply.rejected e) w).2)) := by
  have e1 : _q_startAsyncWrite (ArmReply.rejected e) w =
      (false, setError
        (if (getSystemError e (-1)).errorCode ≠ SerialPortError.ResourceError then
          { getSystemError e (-1) with errorCode := SerialPortError.WriteError }
         else getSystemError e (-1))
        { w with
          d := { w.d with writeChunkBuffer := w.d.writeBuffer.read.1,
                          writeBuffer := w.d.writeBuffer.read.2,
                          writeCompletionOverlapped :=
                            some (obtainOverlapped w.d.writeCompletionOverlapped w.os).1,
                          writeStarted := false }
          os := osArm (OsCall.writeFileEx
                    (obtainOverlapped w.d.writeCompletionOverlapped w.os).1
                    w.d.writeBuffer.read.1)
                  ⟨Kind.Write, (obtainOverlapped w.d.writeCompletionOverlapped w.os).1,
                    toDWORD (w.d.writeBuffer.read.1.length : Int)⟩ (ArmReply.rejected e)
                  (obtainOverlapped w.d.writeCompletionOverlapped w.os).2 }) := by
    unfold _q_startAsyncWrite
    simp only [hq, hs, Bool.or_self, Bool.false_eq_true, ↓reduceIte, osArm, ne_eq, he,
      not_false_eq_true]
  have hcons : w.d.writeBuffer = w.d.writeBuffer.read.1 :: w.d.writeBuffer.read.2 := by
    cases hb : w.d.writeBuffer with
    | nil => rw [hb] at hq; simp [ChunkedByteBuffer.isEmpty] at hq
    | cons c cs => rfl
  have hcalls : (_q_startAsyncWrite (ArmReply.rejected e) w).2.os.calls
      = w.os.calls ++ [OsCall.writeFileEx
          (obtainOverlapped w.d.writeCompletionOverlapped w.os).1 w.d.writeBuffer.read.1] := by
    rw [e1]
    cases hp : w.d.writeCompletionOverlapped <;> simp [setError, osArm, obtainOverlapped]
  have h1 : (_q_startAsyncWrite (ArmReply.rejected e) w).1 = false := by rw [e1]
  have hs3 : (_q_startAsyncWrite (ArmReply.rejected e) w).2.d.writeStarted = false := by
    rw [e1]; rfl
  have hc3 : (_q_startAsyncWrite (ArmReply.rejected e) w).2.d.writeChunkBuffer
      = w.d.writeBuffer.read.1 := by
    rw [e1]; rfl
  have hb3 : (_q_startAsyncWrite (ArmReply.rejected e) w).2.d.writeBuffer
      = w.d.writeBuffer.read.2 := by
    rw [e1]; rfl
  have hp3 : (_q_startAsyncWrite (ArmReply.rejected e) w).2.d.writeCompletionOverlapped
      = some (obtainOverlapped w.d.writeCompletionOverlapped w.os).1 := by
    rw [e1]; rfl
  have hpend : (_q_startAsyncWrite (ArmReply.rejected e) w).2.os.pending = w.os.pending := by
    rw [e1]
    simp only [setError, osArm, obtainOverlapped_pending]
  refine ⟨h1, ?_⟩
  clear h1 e1
  generalize (_q_startAsyncWrite (ArmReply.rejected e) w).2 = v
    at hs3 hc3 hb3 hp3 hpend hcalls ⊢
  refine ⟨hs3, hc3, hb3, hcons, ?_, hpend, ?_, ?_⟩
  · rw [hb3]
    conv_rhs => rw [hcons]
    simp only [ChunkedByteBuffer.size, List.map_cons, List.sum_cons]
    omega
  · intro hq2
    rw [hb3] at hq2
    constructor
    · unfold _q_startAsyncWrite
      simp only [hb3, hq2, hs3, Bool.or_self, Bool.false_eq_true, ↓reduceIte]
      cases reply with
      | accepted => rfl
      | rejected e2 =>
          dsimp only
          split_ifs <;> rfl
    · have hc2 : (_q_startAsyncWrite reply v).2.os.calls
          = v.os.calls
            ++ [OsCall.writeFileEx (obtainOverlapped w.d.writeCompletionOverlapped w.os).1
              w.d.writeBuffer.read.2.read.1] := by
        -- the pointer was set by the rejected call, so no new object is allocated
        unfold _q_startAsyncWrite
        simp only [hb3, hq2, hs3, Bool.or_self, Bool.false_eq_true, ↓reduceIte]
        cases reply with
        | accepted => simp [osArm, hp3, obtainOverlapped_some]
        | rejected e2 =>
            dsimp only
            split_ifs <;> simp [setError, osArm, hp3, obtainOverlapped_some]
      unfold writtenChunks
      rw [hc2, hcalls, List.filterMap_append, List.filterMap_append]
      simp
  · intro hq2
    unfold _q_startAsyncWrite
    simp only [hq2, Bool.true_or, ↓reduceIte]

/-- Witness of `startAsyncWrite_rejected_drops_head`: two chunks are queued on `world0` and
the first arming call is rejected with `ERROR_INVALID_HANDLE` (6). -/
theorem startAsyncWrite_rejected_drops_head_witness :
    (_q_startAsyncWrite (ArmReply.rejected 6) (submit [[1, 2], [3]] world0)).1 = false ∧
    (_q_startAsyncWrite (ArmReply.rejected 6) (submit [[1, 2], [3]] world0)).2.d.writeBuffer
      = [[3]] :=
  ⟨(startAsyncWrite_rejected_drops_head (submit [[1, 2], [3]] world0) 6 ArmReply.accepted
      (by decide) (by decide) (by decide)).1,
   (startAsyncWrite_rejected_drops_head (submit [[1, 2], [3]] world0) 6 ArmReply.accepted
      (by decide) (by decide) (by decide)).2.2.2.1⟩

/-! ## The cancellation sentinel -/

/-- C14: the transferred size reaches `handleNotification` as a `DWORD` and is widened to
`qint64`, so the value handed to the completion functions lies in `[0, 2^32 - 1]` and is never
the sentinel `-1`. On an open port and for an error code classified as `NoError`,
`handleNotification` is the dispatch on the `Overlapped` pointer to `completeAsyncCommunication`,
`completeAsyncRead` or `completeAsyncWrite` with that value; `completeAsyncCommunication` with
it never takes the cancellation branch, so every such Watch completion clears the watch flag
and attempts `startAsyncRead`. -/
theorem sentinel_unreachable (QSERIALPORT_BUFFERSIZE : Nat)
    (bytesTransferred errorCode overlapped : Nat) (comstat : Option COMSTAT)
    (reply : ArmReply) (w : World)
    (hopen : w.d.handle ≠ none)
    (hok : (getSystemError w.os.lastError (toInt32 errorCode)).errorCode
      = SerialPortError.NoError) :
    (0 ≤ toInt64 bytesTransferred ∧ toInt64 bytesTransferred ≤ 2 ^ 32 - 1 ∧
      toInt64 bytesTransferred ≠ -1) ∧
    handleNotification QSERIALPORT_BUFFERSIZE bytesTransferred errorCode overlapped
        comstat reply w
      = (if some overlapped = w.d.communicationCompletionOverlapped then
          (completeAsyncCommunication QSERIALPORT_BUFFERSIZE (toInt64 bytesTransferred)
            reply w).2
        else if some overlapped = w.d.readCompletionOverlapped then
          (completeAsyncRead QSERIALPORT_BUFFERSIZE (toInt64 bytesTransferred) comstat
            reply w).2
        else if some overlapped = w.d.writeCompletionOverlapped then
          (completeAsyncWrite (toInt64 bytesTransferred) reply w).2
        else w) ∧
    completeAsyncCommunication QSERIALPORT_BUFFERSIZE (toInt64 bytesTransferred) reply w
      = startAsyncRead QSERIALPORT_BUFFERSIZE reply
          { w with d := { w.d with communicationStarted := false } } ∧
    (some overlapped = w.d.communicationCompletionOverlapped →
      handleNotification QSERIALPORT_BUFFERSIZE bytesTransferred errorCode overlapped
          comstat reply w
        = (startAsyncRead QSERIALPORT_BUFFERSIZE reply
            { w with d := { w.d with communicationStarted := false } }).2) := by
  have hrange : 0 ≤ toInt64 bytesTransferred ∧ toInt64 bytesTransferred ≤ 2 ^ 32 - 1 ∧
      toInt64 bytesTransferred ≠ -1 := by
    have h1 : bytesTransferred % 2 ^ 32 < 2 ^ 32 := Nat.mod_lt _ (by norm_num)
    unfold toInt64
    refine ⟨by omega, by omega, by omega⟩
  have hdisp : handleNotification QSERIALPORT_BUFFERSIZE bytesTransferred errorCode overlapped
        comstat reply w
      = (if some overlapped = w.d.communicationCompletionOverlapped then
          (completeAsyncCommunication QSERIALPORT_BUFFERSIZE (toInt64 bytesTransferred)
            reply w).2
        else if some overlapped = w.d.readCompletionOverlapped then
          (completeAsyncRead QSERIALPORT_BUFFERSIZE (toInt64 bytesTransferred) comstat
            reply w).2
        else if some overlapped = w.d.writeCompletionOverlapped then
          (completeAsyncWrite (toInt64 bytesTransferred) reply w).2
        else w) := by
    unfold handleNotification
    simp only [hopen, ↓reduceIte, hok, ne_eq, not_true_eq_false]
  have hwatch : completeAsyncCommunication QSERIALPORT_BUFFERSIZE (toInt64 bytesTransferred)
      reply w = startAsyncRead QSERIALPORT_BUFFERSIZE reply
          { w with d := { w.d with communicationStarted := false } } := by
    unfold completeAsyncCommunication
    simp only [hrange.2.2, ↓reduceIte]
  refine ⟨hrange, hdisp, hwatch, ?_⟩
  intro hov
  rw [hdisp, if_pos hov, hwatch]

/-- Witness of `sentinel_unreachable`: a watch is armed on `world0` and completes with the
largest `DWORD` as transferred size. -/
theorem sentinel_unreachable_witness :
    toInt64 4294967295 ≠ -1 ∧
    handleNotification 32768 4294967295 0 0 none ArmReply.accepted
        (startAsyncCommunication ArmReply.accepted world0).2
      = (startAsyncRead 32768 ArmReply.accepted
          { (startAsyncCommunication ArmReply.accepted world0).2 with
            d := { (startAsyncCommunication ArmReply.accepted world0).2.d with
              communicationStarted := false } }).2 :=
  ⟨(sentinel_unreachable 32768 4294967295 0 0 none ArmReply.accepted
      (startAsyncCommunication ArmReply.accepted world0).2 (by decide) (by decide)).1.2.2,
   (sentinel_unreachable 32768 4294967295 0 0 none ArmReply.accepted
      (startAsyncCommunication ArmReply.accepted world0).2 (by decide) (by decide)).2.2.2
      (by decide)⟩

end QSerialPortWin
